import Mathlib

/-!
Verification of the NMS data pipeline (quality control, temporal correlation
join, aggregation) against its natural-language specification.

The embedding follows the Python sources:
  src/src/data_qc.py             (validate_timestamp, validate_utilization,
                                  validate_oper_status, perform_quality_control)
  src/src/data_transformation.py (transform)
  src/src/data_analysis.py       (generate_analytics)
  src/schemas/schema.py          (record shapes)

Timestamps are modelled as UTC epoch seconds (`Int`); Python floats and rounded
utilizations are modelled as rationals (`ℚ`); pandas DataFrames become lists of
records, with the in-place `ts_dt` column addition of `transform` made explicit
through a frame structure carrying the optional derived column.
-/

namespace NMS

/-- A dynamically-typed Python cell value as seen by the QC validators:
a numeric value (`int`/`float`, modelled as `ℚ`), a string, or a missing value
(`None`/`NaN`, both of which fail `pd.notna`). -/
inductive Val where
  | num (q : ℚ)
  | str (s : String)
  | null
deriving Repr, DecidableEq

/-! ### ISO-8601 timestamp parsing

Models the parsing performed by the Python library functions
`datetime.fromisoformat` (used by `validate_timestamp` after replacing a `Z`
suffix with `+00:00`) and `pandas.to_datetime(..., utc=True)` (used by
`transform`) on the ISO-8601 formats this pipeline exercises:
`YYYY-MM-DD[{T|space}HH:MM[:SS][.ffffff]][Z|±HH:MM]`.  The result is the
UTC-normalized timestamp in seconds since 1970-01-01T00:00:00Z; a naive
timestamp (no offset) is taken as UTC, matching `to_datetime(utc=True)`
localization. -/

/-- One decimal digit. -/
def digitVal (c : Char) : Option Nat :=
  if c.isDigit then some (c.toNat - 48) else none

/-- Two decimal digits, returning the value and remaining characters. -/
def parse2 : List Char → Option (Nat × List Char)
  | a :: b :: rest => do
    let x ← digitVal a
    let y ← digitVal b
    some (10 * x + y, rest)
  | _ => none

/-- Four decimal digits, returning the value and remaining characters. -/
def parse4 : List Char → Option (Nat × List Char)
  | a :: b :: c :: d :: rest => do
    let x ← digitVal a
    let y ← digitVal b
    let z ← digitVal c
    let w ← digitVal d
    some (1000 * x + 100 * y + 10 * z + w, rest)
  | _ => none

/-- Consume one expected character. -/
def expectChar (c : Char) : List Char → Option (List Char)
  | x :: rest => if x = c then some rest else none
  | [] => none

/-- Proleptic-Gregorian leap year. -/
def isLeap (y : Nat) : Bool :=
  y % 4 = 0 && (y % 100 ≠ 0 || y % 400 = 0)

/-- Days in a month of a given year. -/
def daysInMonth (y m : Nat) : Nat :=
  if m = 2 then (if isLeap y then 29 else 28)
  else if m = 4 ∨ m = 6 ∨ m = 9 ∨ m = 11 then 30
  else 31

/-- Days from 1970-01-01 to y-m-d in the proleptic Gregorian calendar
(civil-from-days algorithm). -/
def daysFromCivil (y m d : Nat) : Int :=
  let y' : Int := (y : Int) - (if m ≤ 2 then 1 else 0)
  let era : Int := y' / 400
  let yoe : Int := y' - era * 400
  let mp : Int := if m > 2 then (m : Int) - 3 else (m : Int) + 9
  let doy : Int := (153 * mp + 2) / 5 + (d : Int) - 1
  let doe : Int := yoe * 365 + yoe / 4 - yoe / 100 + doy
  era * 146097 + doe - 719468

/-- Optional fractional-second part: a dot followed by 1 to 6 digits, whose
value is discarded (sub-second precision is irrelevant to the pipeline). -/
def dropFraction : List Char → Option (List Char)
  | '.' :: rest =>
    let ds := rest.takeWhile (·.isDigit)
    if ds.length = 0 ∨ ds.length > 6 then none else some (rest.drop ds.length)
  | other => some other

/-- Time-of-day `HH:MM[:SS][.ffffff]` in seconds, plus remaining characters. -/
def parseTime (cs : List Char) : Option (Nat × List Char) := do
  let (h, r1) ← parse2 cs
  let r2 ← expectChar ':' r1
  let (mi, r3) ← parse2 r2
  let (se, r4) ←
    match r3 with
    | ':' :: r3' => do
      let (se, r4) ← parse2 r3'
      some (se, r4)
    | other => some (0, other)
  let r5 ← dropFraction r4
  if h < 24 ∧ mi < 60 ∧ se < 60 then some (h * 3600 + mi * 60 + se, r5)
  else none

/-- UTC offset suffix in seconds: empty (naive, treated as UTC), `Z`, or
`±HH:MM`. -/
def parseOffset : List Char → Option Int
  | [] => some 0
  | ['Z'] => some 0
  | c :: rest =>
    if c = '+' ∨ c = '-' then do
      let (h, r1) ← parse2 rest
      let r2 ← expectChar ':' r1
      let (m, r3) ← parse2 r2
      if r3 = [] ∧ h < 24 ∧ m < 60 then
        let off : Int := (h : Int) * 3600 + (m : Int) * 60
        some (if c = '-' then -off else off)
      else none
    else none

/-- Parse an ISO-8601 timestamp string to UTC epoch seconds.  `none` models a
`ValueError` from `datetime.fromisoformat` / `pandas.to_datetime`. -/
def parseISO8601 (s : String) : Option Int := do
  let cs := s.toList
  let (y, r1) ← parse4 cs
  let r2 ← expectChar '-' r1
  let (mo, r3) ← parse2 r2
  let r4 ← expectChar '-' r3
  let (d, r5) ← parse2 r4
  if y < 1 ∨ mo < 1 ∨ 12 < mo ∨ d < 1 ∨ daysInMonth y mo < d then none
  else
    match r5 with
    | [] => some (daysFromCivil y mo d * 86400)
    | sep :: r6 =>
      if sep = 'T' ∨ sep = ' ' then do
        let (secs, r7) ← parseTime r6
        let off ← parseOffset r7
        some (daysFromCivil y mo d * 86400 + (secs : Int) - off)
      else none

/-! ### QC validators (data_qc.py) -/

/-- `ts.replace('Z', '+00:00')`: replace every occurrence of the
single-character pattern `Z` by `+00:00`. -/
def replaceZ (s : String) : String :=
  ⟨s.toList.flatMap (fun c => if c = 'Z' then "+00:00".toList else [c])⟩

/-- `validate_timestamp`: `datetime.fromisoformat(ts.replace('Z', '+00:00'))`
inside `try/except (ValueError, AttributeError)`.  A non-string value has no
`.replace` method, raising `AttributeError`, hence `false`. -/
def validate_timestamp (v : Val) : Bool :=
  match v with
  | .str s => (parseISO8601 (replaceZ s)).isSome
  | _ => false

/-- `validate_utilization`: `pd.notna(value) and isinstance(value, (int, float))
and 0 <= value <= 100`.  Missing values fail `pd.notna`; strings fail the
`isinstance` check. -/
def validate_utilization (v : Val) : Bool :=
  match v with
  | .num q => decide (0 ≤ q ∧ q ≤ 100)
  | _ => false

/-- `validate_oper_status`: `pd.notna(value) and value in {1, 2}`. -/
def validate_oper_status (v : Val) : Bool :=
  match v with
  | .num q => decide (q = 1 ∨ q = 2)
  | _ => false

/-! ### Record shapes (schemas/schema.py) and QC (data_qc.py) -/

/-- A raw interface-stats row as seen by QC: fields may hold malformed values,
so every cell is a `Val`.  Field order follows `InterfaceStats` in
schemas/schema.py. -/
structure IfStatsRow where
  ts : Val
  device : Val
  ifName : Val
  util_in : Val
  util_out : Val
  admin_status : Val
  oper_status : Val
deriving Repr, DecidableEq

/-- A raw syslog row as seen by QC (schema `Syslog`). -/
structure SyslogRow where
  ts : Val
  device : Val
  severity : Val
  message : Val
deriving Repr, DecidableEq

/-- A `DeviceInventory` row; ingestion coerces every field with `str`, so all
fields are strings. -/
structure DeviceRow where
  device : String
  site : String
  vendor : String
  role : String
deriving Repr, DecidableEq

/-- The original row stored in an invalid record (`row.to_dict()`). -/
inductive RecordVal where
  | ifr (r : IfStatsRow)
  | sys (r : SyslogRow)
deriving Repr, DecidableEq

/-- One row of the invalid-records table built by `perform_quality_control`. -/
structure InvalidRecord where
  source : String
  record_index : Nat
  record : RecordVal
  reason : String
deriving Repr, DecidableEq

/-- `row['device'] not in valid_devices` where `valid_devices` is the set of
(string) device ids of the inventory; a non-string cell is never a member of a
set of strings. -/
def deviceKnown (devs : List String) (v : Val) : Bool :=
  match v with
  | .str s => devs.contains s
  | _ => false

/-- The reason list accumulated for one interface-stats row, in the fixed
check order of `perform_quality_control`: device membership, timestamp parse,
`util_in` range, `util_out` range, `oper_status`. -/
def ifStatsReasons (devs : List String) (r : IfStatsRow) : List String :=
  (if deviceKnown devs r.device then [] else ["device_not_in_inventory"]) ++
  (if validate_timestamp r.ts then [] else ["invalid_timestamp"]) ++
  (if validate_utilization r.util_in then [] else ["invalid_util_in"]) ++
  (if validate_utilization r.util_out then [] else ["invalid_util_out"]) ++
  (if validate_oper_status r.oper_status then [] else ["invalid_oper_status"])

/-- The reason list accumulated for one syslog row: device membership, then
timestamp parse. -/
def syslogReasons (devs : List String) (r : SyslogRow) : List String :=
  (if deviceKnown devs r.device then [] else ["device_not_in_inventory"]) ++
  (if validate_timestamp r.ts then [] else ["invalid_timestamp"])

/-- The interface-stats half of the `invalid_records` list: the
`for idx, row in interface_stats.iterrows()` loop, with `i` the index of the
first remaining row (`iterrows` yields 0-based positions on the RangeIndex
produced by ingestion). -/
def qcIfInvalid (devs : List String) : Nat → List IfStatsRow → List InvalidRecord
  | _, [] => []
  | i, r :: rest =>
    (if (ifStatsReasons devs r).isEmpty then []
     else [⟨"interface_stats", i, .ifr r, String.intercalate "; " (ifStatsReasons devs r)⟩]) ++
    qcIfInvalid devs (i + 1) rest

/-- The syslog half of the `invalid_records` list. -/
def qcSysInvalid (devs : List String) : Nat → List SyslogRow → List InvalidRecord
  | _, [] => []
  | i, r :: rest =>
    (if (syslogReasons devs r).isEmpty then []
     else [⟨"syslog", i, .sys r, String.intercalate "; " (syslogReasons devs r)⟩]) ++
    qcSysInvalid devs (i + 1) rest

/-- `df[~df.index.isin(invalid_indices)]`: keep the rows whose 0-based index is
not among the invalid indices, preserving order. -/
def keepByIndex (invalidIdx : List Nat) : Nat → List α → List α
  | _, [] => []
  | i, r :: rest =>
    (if invalidIdx.contains i then [] else [r]) ++ keepByIndex invalidIdx (i + 1) rest

/-- `perform_quality_control(interface_stats, syslog, device_inventory)`:
checks both collections against the inventory's device-id set, accumulates
invalid records (interface-stats rows first, then syslog rows), and filters
each collection down to the rows with no recorded violation.
Returns `(valid_interface_stats, valid_syslog, invalid_records)`. -/
def perform_quality_control (interface_stats : List IfStatsRow)
    (syslog : List SyslogRow) (device_inventory : List DeviceRow) :
    List IfStatsRow × List SyslogRow × List InvalidRecord :=
  let devs := device_inventory.map (·.device)
  let invalid_records := qcIfInvalid devs 0 interface_stats ++ qcSysInvalid devs 0 syslog
  let invalid_interface_indices :=
    ((invalid_records.filter (fun r => r.source == "interface_stats")).map (·.record_index))
  let invalid_syslog_indices :=
    ((invalid_records.filter (fun r => r.source == "syslog")).map (·.record_index))
  (keepByIndex invalid_interface_indices 0 interface_stats,
   keepByIndex invalid_syslog_indices 0 syslog,
   invalid_records)

/-! ### Temporal correlation join (data_transformation.py) -/

/-- A valid interface-stats row as consumed by `transform`: all cells carry
their schema types (`InterfaceStats` in schemas/schema.py). -/
structure VIfRow where
  ts : String
  device : String
  ifName : String
  util_in : ℚ
  util_out : ℚ
  admin_status : Int
  oper_status : Int
deriving Repr, DecidableEq

/-- A valid syslog row as consumed by `transform` (schema `Syslog`). -/
structure VSysRow where
  ts : String
  device : String
  severity : String
  message : String
deriving Repr, DecidableEq

/-- Schema `TransformedRecord`: device-derived fields and the attached syslog
fields are optional (pandas `NaN` / Python `None` model as `none`). -/
structure TransformedRecord where
  ts : String
  device : String
  site : Option String
  vendor : Option String
  role : Option String
  ifName : String
  util_in : ℚ
  util_out : ℚ
  oper_status : Int
  syslog_severity : Option String
  syslog_msg : Option String
deriving Repr, DecidableEq

/-- A DataFrame of valid interface-stats rows together with the derived
`ts_dt` column, which is absent (`none`) until `transform` assigns it in
place. -/
structure IfFrame where
  rows : List VIfRow
  ts_dt : Option (List Int) := none
deriving Repr, DecidableEq

/-- A DataFrame of valid syslog rows together with the optional derived
`ts_dt` column. -/
structure SysFrame where
  rows : List VSysRow
  ts_dt : Option (List Int) := none
deriving Repr, DecidableEq

/-- `pd.to_datetime(column, utc=True)`: parse every timestamp of the column,
raising (`none`) if any fails. -/
def toDatetimeUTC : List String → Option (List Int)
  | [] => some []
  | s :: rest =>
    match parseISO8601 s, toDatetimeUTC rest with
    | some t, some ts => some (t :: ts)
    | _, _ => none

/-- The `±5` minute correlation window in seconds. -/
def timeWindow : Int := 5 * 60

/-- The boolean mask of `matching_syslog`: same device and `ts_dt` within the
closed interval `[intf_ts - 5 min, intf_ts + 5 min]`. -/
def syslogMatches (device : String) (intf_ts : Int) (p : VSysRow × Int) : Bool :=
  p.1.device == device && decide (intf_ts - timeWindow ≤ p.2) &&
    decide (p.2 ≤ intf_ts + timeWindow)

/-- Build one `TransformedRecord` from a joined row (interface row, its
`ts_dt`, the matched inventory row if any) and the syslog rows with their
`ts_dt` column. -/
def mkTransformed (r : VIfRow) (t : Int) (dev? : Option DeviceRow)
    (sysRows : List (VSysRow × Int)) : TransformedRecord :=
  let matching_syslog := sysRows.filter (syslogMatches r.device t)
  { ts := r.ts
    device := r.device
    site := dev?.map (·.site)
    vendor := dev?.map (·.vendor)
    role := dev?.map (·.role)
    ifName := r.ifName
    util_in := r.util_in
    util_out := r.util_out
    oper_status := r.oper_status
    syslog_severity := matching_syslog.head?.map (fun p => p.1.severity)
    syslog_msg := matching_syslog.head?.map (fun p => p.1.message) }

/-- `transform(valid_interface_stats, valid_syslog, device_inventory)` with
its in-place effect made explicit: it assigns a `ts_dt` column to BOTH input
frames (`valid_interface_stats['ts_dt'] = ...`, `valid_syslog['ts_dt'] = ...`),
left-joins the interface rows with the device inventory on `device`
(each inventory row matching a given left row yields one joined row, in
inventory order; no match yields one joined row with missing device fields),
then attaches the first syslog row (in the valid-syslog collection's original
order) whose device matches and whose timestamp is within ±5 minutes.
Returns the two frames as mutated plus the result; `none` models an exception
from `pd.to_datetime`. -/
def transformEff (valid_interface_stats : IfFrame) (valid_syslog : SysFrame)
    (device_inventory : List DeviceRow) :
    Option (IfFrame × SysFrame × List TransformedRecord) := do
  let ifTs ← toDatetimeUTC (valid_interface_stats.rows.map (·.ts))
  let sysTs ← toDatetimeUTC (valid_syslog.rows.map (·.ts))
  let valid_interface_stats' := { valid_interface_stats with ts_dt := some ifTs }
  let valid_syslog' := { valid_syslog with ts_dt := some sysTs }
  let sysRows := valid_syslog.rows.zip sysTs
  let joined := (valid_interface_stats.rows.zip ifTs).flatMap (fun (r, t) =>
    match device_inventory.filter (fun d => d.device == r.device) with
    | [] => [(r, t, (none : Option DeviceRow))]
    | ms => ms.map (fun m => (r, t, some m)))
  let result_rows := joined.map (fun (r, t, dev?) => mkTransformed r t dev? sysRows)
  some (valid_interface_stats', valid_syslog', result_rows)

/-- The returned DataFrame of `transform` (its in-place effect dropped). -/
def transform (valid_interface_stats : List VIfRow) (valid_syslog : List VSysRow)
    (device_inventory : List DeviceRow) : Option (List TransformedRecord) :=
  (transformEff ⟨valid_interface_stats, none⟩ ⟨valid_syslog, none⟩
    device_inventory).map (fun p => p.2.2)

/-! ### Aggregation (data_analysis.py, generate_analytics) -/

/-- Schema `DeviceSummary`. -/
structure DeviceSummary where
  device : String
  avg_utilization : ℚ
  max_utilization : ℚ
  error_count : Nat
deriving Repr, DecidableEq

/-- Round-half-to-even to the nearest integer, modelling the rounding used by
pandas `Series.round`. -/
def roundHalfEven (q : ℚ) : Int :=
  let f := ⌊q⌋
  let r := q - f
  if r < 1/2 then f
  else if 1/2 < r then f + 1
  else if Even f then f else f + 1

/-- `Series.round(2)`: round to 2 decimal places. -/
def round2 (q : ℚ) : ℚ := (roundHalfEven (100 * q) : ℚ) / 100

/-- Per-record `utilization = (util_in + util_out) / 2`. -/
def utilizationOf (r : TransformedRecord) : ℚ := (r.util_in + r.util_out) / 2

/-- Mean of a group's utilization values (`agg 'mean'` on a non-empty group;
0 is a placeholder on the empty list, which `groupby` never produces). -/
def qMean (l : List ℚ) : ℚ := l.sum / l.length

/-- Maximum of a group's utilization values (`agg 'max'`). -/
def qMax : List ℚ → ℚ
  | [] => 0
  | x :: xs => xs.foldl max x

/-- Code-point comparison of character lists, as Python compares strings. -/
def charListLe : List Char → List Char → Bool
  | [], _ => true
  | _ :: _, [] => false
  | a :: as, b :: bs =>
    if a.toNat < b.toNat then true
    else if b.toNat < a.toNat then false
    else charListLe as bs

/-- Code-point string comparison (Python string ordering). -/
def strLe (a b : String) : Bool := charListLe a.toList b.toList

/-- Insert a string into a sorted list, keeping it sorted. -/
def insertSorted (a : String) : List String → List String
  | [] => [a]
  | b :: rest => if strLe a b then a :: b :: rest else b :: insertSorted a rest

/-- Sort a list of strings ascending by code point, modelling the ascending
group-key ordering of pandas `groupby`. -/
def sortStrings : List String → List String
  | [] => []
  | a :: rest => insertSorted a (sortStrings rest)

/-- `generate_analytics(transformed_df, valid_syslog, output_dir)` without the
plot side effect (the visualization sink is an excluded external collaborator):
per-record utilization, `groupby('device')` (pandas sorts group keys
ascending) with mean/max aggregation, ERROR-severity syslog counts per device
merged in with `fillna(0)`, and 2-decimal rounding of both utilization
columns. -/
def generate_analytics (transformed_df : List TransformedRecord)
    (valid_syslog : List VSysRow) : List DeviceSummary :=
  let error_syslogs := valid_syslog.filter (fun s => s.severity == "ERROR")
  let devices := sortStrings ((transformed_df.map (·.device)).dedup)
  devices.map (fun d =>
    let utils := (transformed_df.filter (fun r => r.device == d)).map utilizationOf
    let error_count := (error_syslogs.filter (fun s => s.device == d)).length
    { device := d
      avg_utilization := round2 (qMean utils)
      max_utilization := round2 (qMax utils)
      error_count := error_count })

/-! ### Specification-side vocabulary

Definitions below render the spec's wording of some claims (the fixed check
order, the rule-violation predicate, the matching-window predicate) so the
theorems can compare the code's behaviour against them. -/

/-- The fixed QC check order for interface-stats rows, as the spec lists it. -/
def checkOrder : List String :=
  ["device_not_in_inventory", "invalid_timestamp", "invalid_util_in",
   "invalid_util_out", "invalid_oper_status"]

/-- Spec-side predicate: does the row violate the named rule? -/
def violatesRule (devs : List String) (r : IfStatsRow) (name : String) : Bool :=
  if name = "device_not_in_inventory" then !deviceKnown devs r.device
  else if name = "invalid_timestamp" then !validate_timestamp r.ts
  else if name = "invalid_util_in" then !validate_utilization r.util_in
  else if name = "invalid_util_out" then !validate_utilization r.util_out
  else if name = "invalid_oper_status" then !validate_oper_status r.oper_status
  else false

/-- Spec-side predicate for the correlation join: a syslog row matches an
interface-stat row with UTC timestamp `t` and device `d` iff it has the same
device and its own UTC-normalized timestamp lies in the closed interval
`[t - 5 min, t + 5 min]`. -/
def specSyslogMatch (d : String) (t : Int) (s : VSysRow) : Bool :=
  s.device == d &&
    match parseISO8601 s.ts with
    | some st => decide (t - timeWindow ≤ st ∧ st ≤ t + timeWindow)
    | none => false

/-! ### Lemmas about the QC loops -/

/-- Every record emitted by the interface-stats QC loop carries source
`"interface_stats"`. -/
theorem qcIfInvalid_source {devs : List String} {rec : InvalidRecord} :
    ∀ {i : Nat} {l : List IfStatsRow}, rec ∈ qcIfInvalid devs i l →
      rec.source = "interface_stats" := by
  intro i l
  induction l generalizing i with
  | nil => intro h; simp [qcIfInvalid] at h
  | cons r rest ih =>
    intro h
    simp only [qcIfInvalid, List.mem_append] at h
    rcases h with h | h
    · split at h <;> simp_all
    · exact ih h

/-- Every record emitted by the syslog QC loop carries source `"syslog"`. -/
theorem qcSysInvalid_source {devs : List String} {rec : InvalidRecord} :
    ∀ {i : Nat} {l : List SyslogRow}, rec ∈ qcSysInvalid devs i l →
      rec.source = "syslog" := by
  intro i l
  induction l generalizing i with
  | nil => intro h; simp [qcSysInvalid] at h
  | cons r rest ih =>
    intro h
    simp only [qcSysInvalid, List.mem_append] at h
    rcases h with h | h
    · split at h <;> simp_all
    · exact ih h

/-- Membership characterization of the interface-stats QC loop: the emitted
records are exactly one per failing row, at its 0-based position. -/
theorem qcIfInvalid_mem_iff {devs : List String} {rec : InvalidRecord} :
    ∀ {i : Nat} {l : List IfStatsRow},
      rec ∈ qcIfInvalid devs i l ↔
        ∃ j, ∃ hj : j < l.length,
          (ifStatsReasons devs (l.get ⟨j, hj⟩)).isEmpty = false ∧
          rec = ⟨"interface_stats", i + j, .ifr (l.get ⟨j, hj⟩),
                 String.intercalate "; " (ifStatsReasons devs (l.get ⟨j, hj⟩))⟩ := by
  intro i l
  induction l generalizing i with
  | nil => simp [qcIfInvalid]
  | cons r rest ih =>
    simp only [qcIfInvalid, List.mem_append, ih]
    constructor
    · rintro (h | ⟨j, hj, hne, hrec⟩)
      · refine ⟨0, by simp, ?_⟩
        split at h <;> simp_all
      · exact ⟨j + 1, by simpa using Nat.succ_lt_succ hj, by simpa using hne,
          by simpa [Nat.add_comm, Nat.add_assoc, Nat.add_left_comm] using hrec⟩
    · rintro ⟨j, hj, hne, hrec⟩
      cases j with
      | zero =>
        left
        simp only [List.get] at hne hrec
        simp [hne, hrec]
      | succ j =>
        right
        refine ⟨j, by simp only [List.length_cons] at hj; omega, by simpa using hne, ?_⟩
        simpa [Nat.add_comm, Nat.add_assoc, Nat.add_left_comm] using hrec

/-- Membership characterization of the syslog QC loop. -/
theorem qcSysInvalid_mem_iff {devs : List String} {rec : InvalidRecord} :
    ∀ {i : Nat} {l : List SyslogRow},
      rec ∈ qcSysInvalid devs i l ↔
        ∃ j, ∃ hj : j < l.length,
          (syslogReasons devs (l.get ⟨j, hj⟩)).isEmpty = false ∧
          rec = ⟨"syslog", i + j, .sys (l.get ⟨j, hj⟩),
                 String.intercalate "; " (syslogReasons devs (l.get ⟨j, hj⟩))⟩ := by
  intro i l
  induction l generalizing i with
  | nil => simp [qcSysInvalid]
  | cons r rest ih =>
    simp only [qcSysInvalid, List.mem_append, ih]
    constructor
    · rintro (h | ⟨j, hj, hne, hrec⟩)
      · refine ⟨0, by simp, ?_⟩
        split at h <;> simp_all
      · exact ⟨j + 1, by simpa using Nat.succ_lt_succ hj, by simpa using hne,
          by simpa [Nat.add_comm, Nat.add_assoc, Nat.add_left_comm] using hrec⟩
    · rintro ⟨j, hj, hne, hrec⟩
      cases j with
      | zero =>
        left
        simp only [List.get] at hne hrec
        simp [hne, hrec]
      | succ j =>
        right
        refine ⟨j, by simp only [List.length_cons] at hj; omega, by simpa using hne, ?_⟩
        simpa [Nat.add_comm, Nat.add_assoc, Nat.add_left_comm] using hrec

/-- Filtering the interface-stats QC records down to one position yields the
empty list (row passed) or exactly the one record for that row. -/
theorem qcIfInvalid_filter_index (devs : List String) :
    ∀ (l : List IfStatsRow) (i j : Nat) (hj : j < l.length),
      (qcIfInvalid devs i l).filter (fun rec => rec.record_index == i + j) =
        (if (ifStatsReasons devs (l.get ⟨j, hj⟩)).isEmpty then []
         else [⟨"interface_stats", i + j, .ifr (l.get ⟨j, hj⟩),
               String.intercalate "; " (ifStatsReasons devs (l.get ⟨j, hj⟩))⟩]) := by
  intro l
  induction l with
  | nil => intro i j hj; simp at hj
  | cons r rest ih =>
    intro i j hj
    cases j with
    | zero =>
      have htail : (qcIfInvalid devs (i + 1) rest).filter
          (fun rec => rec.record_index == i + 0) = [] := by
        rw [List.filter_eq_nil_iff]
        intro rec hrec
        obtain ⟨j', hj', _, hrec'⟩ := qcIfInvalid_mem_iff.mp hrec
        simp [hrec']
        omega
      simp only [qcIfInvalid, List.filter_append, htail, List.append_nil]
      split <;> simp_all
    | succ j =>
      have hj' : j < rest.length := by simp only [List.length_cons] at hj; omega
      have hhead : ∀ recs : List InvalidRecord,
          (∀ rec ∈ recs, rec.record_index = i) →
          recs.filter (fun rec => rec.record_index == i + (j + 1)) = [] := by
        intro recs hrecs
        rw [List.filter_eq_nil_iff]
        intro rec hrec
        have := hrecs rec hrec
        simp only [this, beq_iff_eq]
        omega
      have := ih (i + 1) j hj'
      simp only [qcIfInvalid, List.filter_append]
      rw [hhead _ (by split <;> simp_all), List.nil_append]
      rw [show i + 1 + j = i + (j + 1) by omega] at this
      rw [this]
      rfl

/-- Filtering the syslog QC records down to one position. -/
theorem qcSysInvalid_filter_index (devs : List String) :
    ∀ (l : List SyslogRow) (i j : Nat) (hj : j < l.length),
      (qcSysInvalid devs i l).filter (fun rec => rec.record_index == i + j) =
        (if (syslogReasons devs (l.get ⟨j, hj⟩)).isEmpty then []
         else [⟨"syslog", i + j, .sys (l.get ⟨j, hj⟩),
               String.intercalate "; " (syslogReasons devs (l.get ⟨j, hj⟩))⟩]) := by
  intro l
  induction l with
  | nil => intro i j hj; simp at hj
  | cons r rest ih =>
    intro i j hj
    cases j with
    | zero =>
      have htail : (qcSysInvalid devs (i + 1) rest).filter
          (fun rec => rec.record_index == i + 0) = [] := by
        rw [List.filter_eq_nil_iff]
        intro rec hrec
        obtain ⟨j', hj', _, hrec'⟩ := qcSysInvalid_mem_iff.mp hrec
        simp [hrec']
        omega
      simp only [qcSysInvalid, List.filter_append, htail, List.append_nil]
      split <;> simp_all
    | succ j =>
      have hj' : j < rest.length := by simp only [List.length_cons] at hj; omega
      have hhead : ∀ recs : List InvalidRecord,
          (∀ rec ∈ recs, rec.record_index = i) →
          recs.filter (fun rec => rec.record_index == i + (j + 1)) = [] := by
        intro recs hrecs
        rw [List.filter_eq_nil_iff]
        intro rec hrec
        have := hrecs rec hrec
        simp only [this, beq_iff_eq]
        omega
      have := ih (i + 1) j hj'
      simp only [qcSysInvalid, List.filter_append]
      rw [hhead _ (by split <;> simp_all), List.nil_append]
      rw [show i + 1 + j = i + (j + 1) by omega] at this
      rw [this]
      rfl

/-- The interface-stats QC loop emits one record per failing row. -/
theorem qcIfInvalid_length (devs : List String) :
    ∀ (l : List IfStatsRow) (i : Nat),
      (qcIfInvalid devs i l).length =
        l.countP (fun r => !(ifStatsReasons devs r).isEmpty) := by
  intro l
  induction l with
  | nil => intro i; simp [qcIfInvalid]
  | cons r rest ih =>
    intro i
    simp only [qcIfInvalid, List.length_append, ih, List.countP_cons]
    split <;> simp_all <;> omega

/-- The syslog QC loop emits one record per failing row. -/
theorem qcSysInvalid_length (devs : List String) :
    ∀ (l : List SyslogRow) (i : Nat),
      (qcSysInvalid devs i l).length =
        l.countP (fun r => !(syslogReasons devs r).isEmpty) := by
  intro l
  induction l with
  | nil => intro i; simp [qcSysInvalid]
  | cons r rest ih =>
    intro i
    simp only [qcSysInvalid, List.length_append, ih, List.countP_cons]
    split <;> simp_all <;> omega

/-- Filtering by original index against an index list that marks exactly the
rows failing a content predicate is the same as filtering by the content
predicate itself. -/
theorem keepByIndex_eq_filter {α : Type} (p : α → Bool) :
    ∀ (l : List α) (i : Nat) (idxs : List Nat),
      (∀ j (hj : j < l.length), idxs.contains (i + j) = !p (l.get ⟨j, hj⟩)) →
      keepByIndex idxs i l = l.filter p := by
  intro l
  induction l with
  | nil => intro i idxs _; simp [keepByIndex]
  | cons r rest ih =>
    intro i idxs h
    have h0 : idxs.contains i = !p r := by simpa using h 0 (by simp)
    have htail : keepByIndex idxs (i + 1) rest = rest.filter p := by
      apply ih
      intro j hj
      have := h (j + 1) (by simpa using Nat.succ_lt_succ hj)
      rw [show i + (j + 1) = i + 1 + j by omega] at this
      simpa using this
    simp only [keepByIndex, htail, List.filter_cons, h0]
    cases hp : p r <;> simp [hp]

/-- The indices recorded by the interface-stats QC loop are exactly the
positions of failing rows. -/
theorem qcIfInvalid_index_mem (devs : List String) (l : List IfStatsRow)
    (i : Nat) (j : Nat) (hj : j < l.length) :
    ((qcIfInvalid devs i l).map (fun rec => rec.record_index)).contains (i + j) =
      !(ifStatsReasons devs (l.get ⟨j, hj⟩)).isEmpty := by
  rcases hcase : (ifStatsReasons devs (l.get ⟨j, hj⟩)).isEmpty with _ | _
  · have := qcIfInvalid_filter_index devs l i j hj
    rw [hcase] at this
    simp only [Bool.not_false]
    rw [List.contains_iff_exists_mem_beq]
    have hmem : (⟨"interface_stats", i + j, .ifr (l.get ⟨j, hj⟩),
        String.intercalate "; " (ifStatsReasons devs (l.get ⟨j, hj⟩))⟩ : InvalidRecord) ∈
        qcIfInvalid devs i l := by
      have hfil : (⟨"interface_stats", i + j, .ifr (l.get ⟨j, hj⟩),
          String.intercalate "; " (ifStatsReasons devs (l.get ⟨j, hj⟩))⟩ : InvalidRecord) ∈
          (qcIfInvalid devs i l).filter (fun rec => rec.record_index == i + j) := by
        rw [this]; simp
      exact List.mem_of_mem_filter hfil
    exact ⟨i + j, List.mem_map_of_mem _ hmem, by simp⟩
  · simp only [Bool.not_true]
    rw [Bool.eq_false_iff]
    intro hcontains
    rw [List.contains_iff_exists_mem_beq] at hcontains
    obtain ⟨k, hk, hbeq⟩ := hcontains
    obtain ⟨rec, hrec, hreck⟩ := List.mem_map.mp hk
    obtain ⟨j2, hj2, hne2, hrec2⟩ := qcIfInvalid_mem_iff.mp hrec
    have hidx : rec.record_index = i + j2 := by rw [hrec2]
    have hkk : i + j = k := by simpa using hbeq
    have hjj : j2 = j := by omega
    subst hjj
    rw [hcase] at hne2
    simp at hne2

/-- The indices recorded by the syslog QC loop are exactly the positions of
failing rows. -/
theorem qcSysInvalid_index_mem (devs : List String) (l : List SyslogRow)
    (i : Nat) (j : Nat) (hj : j < l.length) :
    ((qcSysInvalid devs i l).map (fun rec => rec.record_index)).contains (i + j) =
      !(syslogReasons devs (l.get ⟨j, hj⟩)).isEmpty := by
  rcases hcase : (syslogReasons devs (l.get ⟨j, hj⟩)).isEmpty with _ | _
  · have := qcSysInvalid_filter_index devs l i j hj
    rw [hcase] at this
    simp only [Bool.not_false]
    rw [List.contains_iff_exists_mem_beq]
    have hmem : (⟨"syslog", i + j, .sys (l.get ⟨j, hj⟩),
        String.intercalate "; " (syslogReasons devs (l.get ⟨j, hj⟩))⟩ : InvalidRecord) ∈
        qcSysInvalid devs i l := by
      have hfil : (⟨"syslog", i + j, .sys (l.get ⟨j, hj⟩),
          String.intercalate "; " (syslogReasons devs (l.get ⟨j, hj⟩))⟩ : InvalidRecord) ∈
          (qcSysInvalid devs i l).filter (fun rec => rec.record_index == i + j) := by
        rw [this]; simp
      exact List.mem_of_mem_filter hfil
    exact ⟨i + j, List.mem_map_of_mem _ hmem, by simp⟩
  · simp only [Bool.not_true]
    rw [Bool.eq_false_iff]
    intro hcontains
    rw [List.contains_iff_exists_mem_beq] at hcontains
    obtain ⟨k, hk, hbeq⟩ := hcontains
    obtain ⟨rec, hrec, hreck⟩ := List.mem_map.mp hk
    obtain ⟨j2, hj2, hne2, hrec2⟩ := qcSysInvalid_mem_iff.mp hrec
    have hidx : rec.record_index = i + j2 := by rw [hrec2]
    have hkk : i + j = k := by simpa using hbeq
    have hjj : j2 = j := by omega
    subst hjj
    rw [hcase] at hne2
    simp at hne2

/-- The invalid-records table is the interface-stats records followed by the
syslog records. -/
theorem qc_invalid_eq (interface_stats : List IfStatsRow) (syslog : List SyslogRow)
    (device_inventory : List DeviceRow) :
    (perform_quality_control interface_stats syslog device_inventory).2.2 =
      qcIfInvalid (device_inventory.map (·.device)) 0 interface_stats ++
        qcSysInvalid (device_inventory.map (·.device)) 0 syslog := rfl

/-- Filtering the invalid table by source `"interface_stats"` recovers exactly
the interface-stats records. -/
theorem qc_invalid_filter_ifsource (interface_stats : List IfStatsRow)
    (syslog : List SyslogRow) (device_inventory : List DeviceRow) :
    ((perform_quality_control interface_stats syslog device_inventory).2.2.filter
        (fun rec => rec.source == "interface_stats")) =
      qcIfInvalid (device_inventory.map (·.device)) 0 interface_stats := by
  rw [qc_invalid_eq, List.filter_append]
  have h1 : (qcIfInvalid (device_inventory.map (·.device)) 0 interface_stats).filter
      (fun rec => rec.source == "interface_stats") =
      qcIfInvalid (device_inventory.map (·.device)) 0 interface_stats := by
    rw [List.filter_eq_self]
    intro rec hrec
    simp [qcIfInvalid_source hrec]
  have h2 : (qcSysInvalid (device_inventory.map (·.device)) 0 syslog).filter
      (fun rec => rec.source == "interface_stats") = [] := by
    rw [List.filter_eq_nil_iff]
    intro rec hrec
    simp [qcSysInvalid_source hrec]
  rw [h1, h2, List.append_nil]

/-- Filtering the invalid table by source `"syslog"` recovers exactly the
syslog records. -/
theorem qc_invalid_filter_syssource (interface_stats : List IfStatsRow)
    (syslog : List SyslogRow) (device_inventory : List DeviceRow) :
    ((perform_quality_control interface_stats syslog device_inventory).2.2.filter
        (fun rec => rec.source == "syslog")) =
      qcSysInvalid (device_inventory.map (·.device)) 0 syslog := by
  rw [qc_invalid_eq, List.filter_append]
  have h1 : (qcIfInvalid (device_inventory.map (·.device)) 0 interface_stats).filter
      (fun rec => rec.source == "syslog") = [] := by
    rw [List.filter_eq_nil_iff]
    intro rec hrec
    simp [qcIfInvalid_source hrec]
  have h2 : (qcSysInvalid (device_inventory.map (·.device)) 0 syslog).filter
      (fun rec => rec.source == "syslog") =
      qcSysInvalid (device_inventory.map (·.device)) 0 syslog := by
    rw [List.filter_eq_self]
    intro rec hrec
    simp [qcSysInvalid_source hrec]
  rw [h1, h2, List.nil_append]

/-- The valid interface-stats output equals the input filtered to the rows
that pass all five checks, in original order. -/
theorem qc_valid_if_eq (interface_stats : List IfStatsRow) (syslog : List SyslogRow)
    (device_inventory : List DeviceRow) :
    (perform_quality_control interface_stats syslog device_inventory).1 =
      interface_stats.filter
        (fun r => (ifStatsReasons (device_inventory.map (·.device)) r).isEmpty) := by
  show keepByIndex
      (((qcIfInvalid (device_inventory.map (·.device)) 0 interface_stats ++
          qcSysInvalid (device_inventory.map (·.device)) 0 syslog).filter
        (fun rec => rec.source == "interface_stats")).map (fun rec => rec.record_index))
      0 interface_stats = _
  rw [← qc_invalid_eq interface_stats syslog device_inventory,
    qc_invalid_filter_ifsource]
  apply keepByIndex_eq_filter
  intro j hj
  exact qcIfInvalid_index_mem (device_inventory.map (·.device)) interface_stats 0 j hj

/-- The valid syslog output equals the input filtered to the rows that pass
both checks, in original order. -/
theorem qc_valid_sys_eq (interface_stats : List IfStatsRow) (syslog : List SyslogRow)
    (device_inventory : List DeviceRow) :
    (perform_quality_control interface_stats syslog device_inventory).2.1 =
      syslog.filter
        (fun r => (syslogReasons (device_inventory.map (·.device)) r).isEmpty) := by
  show keepByIndex
      (((qcIfInvalid (device_inventory.map (·.device)) 0 interface_stats ++
          qcSysInvalid (device_inventory.map (·.device)) 0 syslog).filter
        (fun rec => rec.source == "syslog")).map (fun rec => rec.record_index))
      0 syslog = _
  rw [← qc_invalid_eq interface_stats syslog device_inventory,
    qc_invalid_filter_syssource]
  apply keepByIndex_eq_filter
  intro j hj
  exact qcSysInvalid_index_mem (device_inventory.map (·.device)) syslog 0 j hj

/-- The reason list built by the QC loop is exactly the fixed check-order list
restricted to the violated rules. -/
theorem ifStatsReasons_eq_checkOrder (devs : List String) (r : IfStatsRow) :
    ifStatsReasons devs r = checkOrder.filter (violatesRule devs r) := by
  simp only [ifStatsReasons, checkOrder, violatesRule, List.filter]
  cases h1 : deviceKnown devs r.device <;>
    cases h2 : validate_timestamp r.ts <;>
      cases h3 : validate_utilization r.util_in <;>
        cases h4 : validate_utilization r.util_out <;>
          cases h5 : validate_oper_status r.oper_status <;>
            simp [h1, h2, h3, h4, h5]

/-- C3: For every interface-stat row failing one or more of the five QC
checks, the invalid-record table contains exactly one row for it, carrying
source `"interface_stats"`, the row's original 0-based position, all its
original field values, and a reason string equal to the names of every
violated rule joined with `"; "` in the fixed check order (device membership,
timestamp parse, util_in range, util_out range, oper_status). -/
theorem qc_one_invalid_row_per_failing_record (interface_stats : List IfStatsRow)
    (syslog : List SyslogRow) (device_inventory : List DeviceRow) (i : Nat)
    (hi : i < interface_stats.length)
    (hfail : (ifStatsReasons (device_inventory.map (·.device))
        (interface_stats.get ⟨i, hi⟩)).isEmpty = false) :
    ((perform_quality_control interface_stats syslog device_inventory).2.2.filter
        (fun rec => rec.source == "interface_stats" && rec.record_index == i)) =
      [⟨"interface_stats", i, .ifr (interface_stats.get ⟨i, hi⟩),
        String.intercalate "; " (checkOrder.filter
          (violatesRule (device_inventory.map (·.device))
            (interface_stats.get ⟨i, hi⟩)))⟩] := by
  rw [qc_invalid_eq, List.filter_append]
  have h2 : (qcSysInvalid (device_inventory.map (·.device)) 0 syslog).filter
      (fun rec => rec.source == "interface_stats" && rec.record_index == i) = [] := by
    rw [List.filter_eq_nil_iff]
    intro rec hrec
    simp [qcSysInvalid_source hrec]
  have h1 : (qcIfInvalid (device_inventory.map (·.device)) 0 interface_stats).filter
      (fun rec => rec.source == "interface_stats" && rec.record_index == i) =
      (qcIfInvalid (device_inventory.map (·.device)) 0 interface_stats).filter
        (fun rec => rec.record_index == 0 + i) := by
    apply List.filter_congr
    intro rec hrec
    simp [qcIfInvalid_source hrec]
  rw [h1, h2, List.append_nil,
    qcIfInvalid_filter_index (device_inventory.map (·.device)) interface_stats 0 i hi]
  have hfail' := hfail
  rw [ifStatsReasons_eq_checkOrder] at hfail'
  simp [hfail, ifStatsReasons_eq_checkOrder]
  simpa using hfail'

/-- Witness for the C3 theorem at a concrete input: a row violating all five
checks at position 1 yields exactly one invalid record with the concatenated
reason string. -/
theorem qc_one_invalid_row_per_failing_record_witness :
    ((perform_quality_control
        [⟨.str "2024-01-01T12:00:00Z", .str "R1", .str "eth0", .num 10, .num 20, .num 1, .num 1⟩,
         ⟨.str "bad-ts", .str "RX", .str "eth0", .str "abc", .num 200, .num 1, .num 7⟩]
        [] [⟨"R1", "S1", "V1", "core"⟩]).2.2.filter
        (fun rec => rec.source == "interface_stats" && rec.record_index == 1)) =
      [⟨"interface_stats", 1,
        .ifr (([⟨.str "2024-01-01T12:00:00Z", .str "R1", .str "eth0", .num 10, .num 20, .num 1, .num 1⟩,
               ⟨.str "bad-ts", .str "RX", .str "eth0", .str "abc", .num 200, .num 1, .num 7⟩] :
               List IfStatsRow).get ⟨1, by simp⟩),
        String.intercalate "; " (checkOrder.filter
          (violatesRule ((([⟨"R1", "S1", "V1", "core"⟩]) : List DeviceRow).map (·.device))
            (([⟨.str "2024-01-01T12:00:00Z", .str "R1", .str "eth0", .num 10, .num 20, .num 1, .num 1⟩,
              ⟨.str "bad-ts", .str "RX", .str "eth0", .str "abc", .num 200, .num 1, .num 7⟩] :
              List IfStatsRow).get ⟨1, by simp⟩)))⟩] :=
  qc_one_invalid_row_per_failing_record _ _ _ 1 (by simp) (by rfl)

/-- A string-valued cell fails `validate_utilization`, so the rule name is
recorded. -/
theorem mem_reasons_util_in (devs : List String) (r : IfStatsRow)
    (h : validate_utilization r.util_in = false) :
    "invalid_util_in" ∈ ifStatsReasons devs r := by
  simp [ifStatsReasons, h]

/-- A failing `util_out` check records its rule name. -/
theorem mem_reasons_util_out (devs : List String) (r : IfStatsRow)
    (h : validate_utilization r.util_out = false) :
    "invalid_util_out" ∈ ifStatsReasons devs r := by
  simp [ifStatsReasons, h]

/-- A failing timestamp check records its rule name. -/
theorem mem_reasons_timestamp (devs : List String) (r : IfStatsRow)
    (h : validate_timestamp r.ts = false) :
    "invalid_timestamp" ∈ ifStatsReasons devs r := by
  simp [ifStatsReasons, h]

/-- A failing `oper_status` check records its rule name. -/
theorem mem_reasons_oper_status (devs : List String) (r : IfStatsRow)
    (h : validate_oper_status r.oper_status = false) :
    "invalid_oper_status" ∈ ifStatsReasons devs r := by
  simp [ifStatsReasons, h]

/-- A list with a member is not empty. -/
theorem isEmpty_false_of_mem {α : Type} {a : α} {l : List α} (h : a ∈ l) :
    l.isEmpty = false := by
  cases l <;> simp_all

/-- A failing interface-stats row at position `i` contributes its invalid
record to the QC output. -/
theorem qc_mem_invalid_of_fail (interface_stats : List IfStatsRow)
    (syslog : List SyslogRow) (device_inventory : List DeviceRow) (i : Nat)
    (hi : i < interface_stats.length)
    (hfail : (ifStatsReasons (device_inventory.map (·.device))
        (interface_stats.get ⟨i, hi⟩)).isEmpty = false) :
    (⟨"interface_stats", i, .ifr (interface_stats.get ⟨i, hi⟩),
      String.intercalate "; " (ifStatsReasons (device_inventory.map (·.device))
        (interface_stats.get ⟨i, hi⟩))⟩ : InvalidRecord) ∈
      (perform_quality_control interface_stats syslog device_inventory).2.2 := by
  rw [qc_invalid_eq]
  apply List.mem_append_left
  have h0 := (@qcIfInvalid_mem_iff (device_inventory.map (·.device))
      ⟨"interface_stats", 0 + i, .ifr (interface_stats.get ⟨i, hi⟩),
        String.intercalate "; " (ifStatsReasons (device_inventory.map (·.device))
          (interface_stats.get ⟨i, hi⟩))⟩
      0 interface_stats).mpr ⟨i, hi, hfail, rfl⟩
  simpa using h0

/-- C4: `perform_quality_control` never raises on present-but-malformed data
values: a row whose `util_in`/`util_out` is non-numeric or out of range, whose
timestamp is a non-string or an unparseable string, or whose `oper_status` is
not the number 1 or 2, is returned normally (the function is total in this
embedding, matching the `try/except` and `pd.notna`/`isinstance` guards of the
source) with an invalid record whose reason names every such violated rule. -/
theorem qc_malformed_never_raises (interface_stats : List IfStatsRow)
    (syslog : List SyslogRow) (device_inventory : List DeviceRow) (i : Nat)
    (hi : i < interface_stats.length)
    (hmal :
      (∀ q, (interface_stats.get ⟨i, hi⟩).util_in ≠ .num q) ∨
      (∃ q, (interface_stats.get ⟨i, hi⟩).util_in = .num q ∧ (q < 0 ∨ 100 < q)) ∨
      (∀ q, (interface_stats.get ⟨i, hi⟩).util_out ≠ .num q) ∨
      (∃ q, (interface_stats.get ⟨i, hi⟩).util_out = .num q ∧ (q < 0 ∨ 100 < q)) ∨
      (∀ s, (interface_stats.get ⟨i, hi⟩).ts ≠ .str s) ∨
      (∃ s, (interface_stats.get ⟨i, hi⟩).ts = .str s ∧
        parseISO8601 (replaceZ s) = none) ∨
      (∀ q, (interface_stats.get ⟨i, hi⟩).oper_status ≠ .num q) ∨
      (∃ q, (interface_stats.get ⟨i, hi⟩).oper_status = .num q ∧ q ≠ 1 ∧ q ≠ 2)) :
    ∃ rec ∈ (perform_quality_control interface_stats syslog device_inventory).2.2,
      rec.source = "interface_stats" ∧ rec.record_index = i ∧
      rec.record = .ifr (interface_stats.get ⟨i, hi⟩) ∧
      rec.reason = String.intercalate "; " (ifStatsReasons
        (device_inventory.map (·.device)) (interface_stats.get ⟨i, hi⟩)) ∧
      ((∀ q, (interface_stats.get ⟨i, hi⟩).util_in ≠ .num q) ∨
        (∃ q, (interface_stats.get ⟨i, hi⟩).util_in = .num q ∧ (q < 0 ∨ 100 < q)) →
        "invalid_util_in" ∈ ifStatsReasons (device_inventory.map (·.device))
          (interface_stats.get ⟨i, hi⟩)) ∧
      ((∀ q, (interface_stats.get ⟨i, hi⟩).util_out ≠ .num q) ∨
        (∃ q, (interface_stats.get ⟨i, hi⟩).util_out = .num q ∧ (q < 0 ∨ 100 < q)) →
        "invalid_util_out" ∈ ifStatsReasons (device_inventory.map (·.device))
          (interface_stats.get ⟨i, hi⟩)) ∧
      ((∀ s, (interface_stats.get ⟨i, hi⟩).ts ≠ .str s) ∨
        (∃ s, (interface_stats.get ⟨i, hi⟩).ts = .str s ∧
          parseISO8601 (replaceZ s) = none) →
        "invalid_timestamp" ∈ ifStatsReasons (device_inventory.map (·.device))
          (interface_stats.get ⟨i, hi⟩)) ∧
      ((∀ q, (interface_stats.get ⟨i, hi⟩).oper_status ≠ .num q) ∨
        (∃ q, (interface_stats.get ⟨i, hi⟩).oper_status = .num q ∧ q ≠ 1 ∧ q ≠ 2) →
        "invalid_oper_status" ∈ ifStatsReasons (device_inventory.map (·.device))
          (interface_stats.get ⟨i, hi⟩)) := by
  set devs := device_inventory.map (·.device) with hdevs
  set r := interface_stats.get ⟨i, hi⟩ with hr
  have hin : (∀ q, r.util_in ≠ .num q) ∨ (∃ q, r.util_in = .num q ∧ (q < 0 ∨ 100 < q)) →
      validate_utilization r.util_in = false := by
    rintro (h | ⟨q, hq, hrange⟩)
    · cases hv : r.util_in with
      | num q => exact absurd hv (h q)
      | str s => rfl
      | null => rfl
    · rw [hq]
      simp only [validate_utilization, decide_eq_false_iff_not]
      rintro ⟨h0, h100⟩
      rcases hrange with h | h <;> linarith
  have hout : (∀ q, r.util_out ≠ .num q) ∨ (∃ q, r.util_out = .num q ∧ (q < 0 ∨ 100 < q)) →
      validate_utilization r.util_out = false := by
    rintro (h | ⟨q, hq, hrange⟩)
    · cases hv : r.util_out with
      | num q => exact absurd hv (h q)
      | str s => rfl
      | null => rfl
    · rw [hq]
      simp only [validate_utilization, decide_eq_false_iff_not]
      rintro ⟨h0, h100⟩
      rcases hrange with h | h <;> linarith
  have hts : (∀ s, r.ts ≠ .str s) ∨
      (∃ s, r.ts = .str s ∧ parseISO8601 (replaceZ s) = none) →
      validate_timestamp r.ts = false := by
    rintro (h | ⟨s, hs, hparse⟩)
    · cases hv : r.ts with
      | num q => rfl
      | str s => exact absurd hv (h s)
      | null => rfl
    · rw [hs]
      simp [validate_timestamp, hparse]
  have hop : (∀ q, r.oper_status ≠ .num q) ∨
      (∃ q, r.oper_status = .num q ∧ q ≠ 1 ∧ q ≠ 2) →
      validate_oper_status r.oper_status = false := by
    rintro (h | ⟨q, hq, h1, h2⟩)
    · cases hv : r.oper_status with
      | num q => exact absurd hv (h q)
      | str s => rfl
      | null => rfl
    · rw [hq]
      simp [validate_oper_status, h1, h2]
  have hne : (ifStatsReasons devs r).isEmpty = false := by
    rcases hmal with h | h | h | h | h | h | h | h
    · exact isEmpty_false_of_mem (mem_reasons_util_in devs r (hin (Or.inl h)))
    · exact isEmpty_false_of_mem (mem_reasons_util_in devs r (hin (Or.inr h)))
    · exact isEmpty_false_of_mem (mem_reasons_util_out devs r (hout (Or.inl h)))
    · exact isEmpty_false_of_mem (mem_reasons_util_out devs r (hout (Or.inr h)))
    · exact isEmpty_false_of_mem (mem_reasons_timestamp devs r (hts (Or.inl h)))
    · exact isEmpty_false_of_mem (mem_reasons_timestamp devs r (hts (Or.inr h)))
    · exact isEmpty_false_of_mem (mem_reasons_oper_status devs r (hop (Or.inl h)))
    · exact isEmpty_false_of_mem (mem_reasons_oper_status devs r (hop (Or.inr h)))
  refine ⟨⟨"interface_stats", i, .ifr r, String.intercalate "; " (ifStatsReasons devs r)⟩,
    qc_mem_invalid_of_fail interface_stats syslog device_inventory i hi hne,
    rfl, rfl, rfl, rfl, ?_, ?_, ?_, ?_⟩
  · exact fun h => mem_reasons_util_in devs r (hin h)
  · exact fun h => mem_reasons_util_out devs r (hout h)
  · exact fun h => mem_reasons_timestamp devs r (hts h)
  · exact fun h => mem_reasons_oper_status devs r (hop h)

/-- Witness for the C4 theorem: a row with a string `util_in`, an out-of-range
`util_out`, a numeric timestamp and `oper_status = 7` is rejected, not
crashed on, with every rule name recorded. -/
theorem qc_malformed_never_raises_witness :
    ∃ rec ∈ (perform_quality_control
        [⟨.num 5, .str "R1", .str "eth0", .str "abc", .num 200, .num 1, .num 7⟩]
        [] [⟨"R1", "S1", "V1", "core"⟩]).2.2,
      rec.source = "interface_stats" ∧ rec.record_index = 0 ∧
      rec.record = .ifr (([⟨.num 5, .str "R1", .str "eth0", .str "abc", .num 200,
        .num 1, .num 7⟩] : List IfStatsRow).get ⟨0, by simp⟩) ∧
      rec.reason = String.intercalate "; " (ifStatsReasons
        ((([⟨"R1", "S1", "V1", "core"⟩]) : List DeviceRow).map (·.device))
        (([⟨.num 5, .str "R1", .str "eth0", .str "abc", .num 200, .num 1, .num 7⟩] :
          List IfStatsRow).get ⟨0, by simp⟩)) ∧
      ((∀ q, (([⟨.num 5, .str "R1", .str "eth0", .str "abc", .num 200, .num 1, .num 7⟩] :
          List IfStatsRow).get ⟨0, by simp⟩).util_in ≠ .num q) ∨
        (∃ q, (([⟨.num 5, .str "R1", .str "eth0", .str "abc", .num 200, .num 1, .num 7⟩] :
          List IfStatsRow).get ⟨0, by simp⟩).util_in = .num q ∧ (q < 0 ∨ 100 < q)) →
        "invalid_util_in" ∈ ifStatsReasons
          ((([⟨"R1", "S1", "V1", "core"⟩]) : List DeviceRow).map (·.device))
          (([⟨.num 5, .str "R1", .str "eth0", .str "abc", .num 200, .num 1, .num 7⟩] :
            List IfStatsRow).get ⟨0, by simp⟩)) ∧
      ((∀ q, (([⟨.num 5, .str "R1", .str "eth0", .str "abc", .num 200, .num 1, .num 7⟩] :
          List IfStatsRow).get ⟨0, by simp⟩).util_out ≠ .num q) ∨
        (∃ q, (([⟨.num 5, .str "R1", .str "eth0", .str "abc", .num 200, .num 1, .num 7⟩] :
          List IfStatsRow).get ⟨0, by simp⟩).util_out = .num q ∧ (q < 0 ∨ 100 < q)) →
        "invalid_util_out" ∈ ifStatsReasons
          ((([⟨"R1", "S1", "V1", "core"⟩]) : List DeviceRow).map (·.device))
          (([⟨.num 5, .str "R1", .str "eth0", .str "abc", .num 200, .num 1, .num 7⟩] :
            List IfStatsRow).get ⟨0, by simp⟩)) ∧
      ((∀ s, (([⟨.num 5, .str "R1", .str "eth0", .str "abc", .num 200, .num 1, .num 7⟩] :
          List IfStatsRow).get ⟨0, by simp⟩).ts ≠ .str s) ∨
        (∃ s, (([⟨.num 5, .str "R1", .str "eth0", .str "abc", .num 200, .num 1, .num 7⟩] :
          List IfStatsRow).get ⟨0, by simp⟩).ts = .str s ∧
          parseISO8601 (replaceZ s) = none) →
        "invalid_timestamp" ∈ ifStatsReasons
          ((([⟨"R1", "S1", "V1", "core"⟩]) : List DeviceRow).map (·.device))
          (([⟨.num 5, .str "R1", .str "eth0", .str "abc", .num 200, .num 1, .num 7⟩] :
            List IfStatsRow).get ⟨0, by simp⟩)) ∧
      ((∀ q, (([⟨.num 5, .str "R1", .str "eth0", .str "abc", .num 200, .num 1, .num 7⟩] :
          List IfStatsRow).get ⟨0, by simp⟩).oper_status ≠ .num q) ∨
        (∃ q, (([⟨.num 5, .str "R1", .str "eth0", .str "abc", .num 200, .num 1, .num 7⟩] :
          List IfStatsRow).get ⟨0, by simp⟩).oper_status = .num q ∧ q ≠ 1 ∧ q ≠ 2) →
        "invalid_oper_status" ∈ ifStatsReasons
          ((([⟨"R1", "S1", "V1", "core"⟩]) : List DeviceRow).map (·.device))
          (([⟨.num 5, .str "R1", .str "eth0", .str "abc", .num 200, .num 1, .num 7⟩] :
            List IfStatsRow).get ⟨0, by simp⟩)) :=
  qc_malformed_never_raises _ _ _ 0 (by simp)
    (Or.inl (by intro q h; simp at h))

/-- Filtering the whole invalid table by source and one interface-stats
position yields nothing (row passed) or exactly its one record. -/
theorem qc_filter_index_if (interface_stats : List IfStatsRow)
    (syslog : List SyslogRow) (device_inventory : List DeviceRow) (i : Nat)
    (hi : i < interface_stats.length) :
    ((perform_quality_control interface_stats syslog device_inventory).2.2.filter
        (fun rec => rec.source == "interface_stats" && rec.record_index == i)) =
      (if (ifStatsReasons (device_inventory.map (·.device))
            (interface_stats.get ⟨i, hi⟩)).isEmpty then []
       else [⟨"interface_stats", i, .ifr (interface_stats.get ⟨i, hi⟩),
         String.intercalate "; " (ifStatsReasons (device_inventory.map (·.device))
           (interface_stats.get ⟨i, hi⟩))⟩]) := by
  rw [qc_invalid_eq, List.filter_append]
  have h2 : (qcSysInvalid (device_inventory.map (·.device)) 0 syslog).filter
      (fun rec => rec.source == "interface_stats" && rec.record_index == i) = [] := by
    rw [List.filter_eq_nil_iff]
    intro rec hrec
    simp [qcSysInvalid_source hrec]
  have h1 : (qcIfInvalid (device_inventory.map (·.device)) 0 interface_stats).filter
      (fun rec => rec.source == "interface_stats" && rec.record_index == i) =
      (qcIfInvalid (device_inventory.map (·.device)) 0 interface_stats).filter
        (fun rec => rec.record_index == 0 + i) := by
    apply List.filter_congr
    intro rec hrec
    simp [qcIfInvalid_source hrec]
  rw [h1, h2, List.append_nil,
    qcIfInvalid_filter_index (device_inventory.map (·.device)) interface_stats 0 i hi]
  simp

/-- Filtering the whole invalid table by source and one syslog position. -/
theorem qc_filter_index_sys (interface_stats : List IfStatsRow)
    (syslog : List SyslogRow) (device_inventory : List DeviceRow) (i : Nat)
    (hi : i < syslog.length) :
    ((perform_quality_control interface_stats syslog device_inventory).2.2.filter
        (fun rec => rec.source == "syslog" && rec.record_index == i)) =
      (if (syslogReasons (device_inventory.map (·.device))
            (syslog.get ⟨i, hi⟩)).isEmpty then []
       else [⟨"syslog", i, .sys (syslog.get ⟨i, hi⟩),
         String.intercalate "; " (syslogReasons (device_inventory.map (·.device))
           (syslog.get ⟨i, hi⟩))⟩]) := by
  rw [qc_invalid_eq, List.filter_append]
  have h1 : (qcIfInvalid (device_inventory.map (·.device)) 0 interface_stats).filter
      (fun rec => rec.source == "syslog" && rec.record_index == i) = [] := by
    rw [List.filter_eq_nil_iff]
    intro rec hrec
    simp [qcIfInvalid_source hrec]
  have h2 : (qcSysInvalid (device_inventory.map (·.device)) 0 syslog).filter
      (fun rec => rec.source == "syslog" && rec.record_index == i) =
      (qcSysInvalid (device_inventory.map (·.device)) 0 syslog).filter
        (fun rec => rec.record_index == 0 + i) := by
    apply List.filter_congr
    intro rec hrec
    simp [qcSysInvalid_source hrec]
  rw [h1, h2, List.nil_append,
    qcSysInvalid_filter_index (device_inventory.map (·.device)) syslog 0 i hi]
  simp

/-- C6: QC partitions each input collection by original index: the valid
subsets are exactly the passing rows in original order with original fields,
the counts of valid plus invalid rows add up to the input length (no silent
drops), and each position has exactly one invalid record iff it fails at least
one check (two identical rows at different positions are tracked
independently, one record each) and none iff it is kept. -/
theorem qc_partitions_by_index (interface_stats : List IfStatsRow)
    (syslog : List SyslogRow) (device_inventory : List DeviceRow) :
    (perform_quality_control interface_stats syslog device_inventory).1 =
      interface_stats.filter
        (fun r => (ifStatsReasons (device_inventory.map (·.device)) r).isEmpty) ∧
    (perform_quality_control interface_stats syslog device_inventory).2.1 =
      syslog.filter
        (fun r => (syslogReasons (device_inventory.map (·.device)) r).isEmpty) ∧
    ((perform_quality_control interface_stats syslog device_inventory).1).Sublist
      interface_stats ∧
    ((perform_quality_control interface_stats syslog device_inventory).2.1).Sublist
      syslog ∧
    (perform_quality_control interface_stats syslog device_inventory).1.length +
      ((perform_quality_control interface_stats syslog device_inventory).2.2.filter
        (fun rec => rec.source == "interface_stats")).length =
      interface_stats.length ∧
    (perform_quality_control interface_stats syslog device_inventory).2.1.length +
      ((perform_quality_control interface_stats syslog device_inventory).2.2.filter
        (fun rec => rec.source == "syslog")).length =
      syslog.length ∧
    (∀ i (hi : i < interface_stats.length),
      (perform_quality_control interface_stats syslog device_inventory).2.2.countP
          (fun rec => rec.source == "interface_stats" && rec.record_index == i) =
        if (ifStatsReasons (device_inventory.map (·.device))
            (interface_stats.get ⟨i, hi⟩)).isEmpty then 0 else 1) ∧
    (∀ i (hi : i < syslog.length),
      (perform_quality_control interface_stats syslog device_inventory).2.2.countP
          (fun rec => rec.source == "syslog" && rec.record_index == i) =
        if (syslogReasons (device_inventory.map (·.device))
            (syslog.get ⟨i, hi⟩)).isEmpty then 0 else 1) := by
  refine ⟨qc_valid_if_eq _ _ _, qc_valid_sys_eq _ _ _, ?_, ?_, ?_, ?_, ?_, ?_⟩
  · rw [qc_valid_if_eq]; exact List.filter_sublist _
  · rw [qc_valid_sys_eq]; exact List.filter_sublist _
  · rw [qc_valid_if_eq, qc_invalid_filter_ifsource, qcIfInvalid_length,
      ← List.countP_eq_length_filter]
    have := List.length_eq_countP_add_countP
      (fun r => (ifStatsReasons (device_inventory.map (·.device)) r).isEmpty)
      interface_stats
    rw [this]
    congr 1
    apply List.countP_congr
    intro r _
    simp
  · rw [qc_valid_sys_eq, qc_invalid_filter_syssource, qcSysInvalid_length,
      ← List.countP_eq_length_filter]
    have := List.length_eq_countP_add_countP
      (fun r => (syslogReasons (device_inventory.map (·.device)) r).isEmpty)
      syslog
    rw [this]
    congr 1
    apply List.countP_congr
    intro r _
    simp
  · intro i hi
    rw [List.countP_eq_length_filter, qc_filter_index_if interface_stats syslog
      device_inventory i hi]
    split <;> simp
  · intro i hi
    rw [List.countP_eq_length_filter, qc_filter_index_sys interface_stats syslog
      device_inventory i hi]
    split <;> simp

/-- Witness for the C6 theorem at a concrete input with a duplicated failing
row at positions 0 and 2: both positions carry exactly one invalid record. -/
theorem qc_partitions_by_index_witness :
    (perform_quality_control
        [⟨.str "bad", .str "R1", .str "e0", .num 1, .num 2, .num 1, .num 1⟩,
         ⟨.str "2024-01-01T00:00:00Z", .str "R1", .str "e0", .num 1, .num 2, .num 1, .num 1⟩,
         ⟨.str "bad", .str "R1", .str "e0", .num 1, .num 2, .num 1, .num 1⟩]
        [⟨.str "2024-01-01T00:00:00Z", .str "R1", .str "INFO", .str "m"⟩]
        [⟨"R1", "S1", "V1", "core"⟩]).2.2.countP
        (fun rec => rec.source == "interface_stats" && rec.record_index == 0) = 1 ∧
    (perform_quality_control
        [⟨.str "bad", .str "R1", .str "e0", .num 1, .num 2, .num 1, .num 1⟩,
         ⟨.str "2024-01-01T00:00:00Z", .str "R1", .str "e0", .num 1, .num 2, .num 1, .num 1⟩,
         ⟨.str "bad", .str "R1", .str "e0", .num 1, .num 2, .num 1, .num 1⟩]
        [⟨.str "2024-01-01T00:00:00Z", .str "R1", .str "INFO", .str "m"⟩]
        [⟨"R1", "S1", "V1", "core"⟩]).2.2.countP
        (fun rec => rec.source == "interface_stats" && rec.record_index == 2) = 1 := by
  constructor
  · have h := (qc_partitions_by_index
      [⟨.str "bad", .str "R1", .str "e0", .num 1, .num 2, .num 1, .num 1⟩,
       ⟨.str "2024-01-01T00:00:00Z", .str "R1", .str "e0", .num 1, .num 2, .num 1, .num 1⟩,
       ⟨.str "bad", .str "R1", .str "e0", .num 1, .num 2, .num 1, .num 1⟩]
      [⟨.str "2024-01-01T00:00:00Z", .str "R1", .str "INFO", .str "m"⟩]
      [⟨"R1", "S1", "V1", "core"⟩]).2.2.2.2.2.2.1 0 (by simp)
    rw [h]
    rfl
  · have h := (qc_partitions_by_index
      [⟨.str "bad", .str "R1", .str "e0", .num 1, .num 2, .num 1, .num 1⟩,
       ⟨.str "2024-01-01T00:00:00Z", .str "R1", .str "e0", .num 1, .num 2, .num 1, .num 1⟩,
       ⟨.str "bad", .str "R1", .str "e0", .num 1, .num 2, .num 1, .num 1⟩]
      [⟨.str "2024-01-01T00:00:00Z", .str "R1", .str "INFO", .str "m"⟩]
      [⟨"R1", "S1", "V1", "core"⟩]).2.2.2.2.2.2.1 2 (by simp)
    rw [h]
    rfl

/-- C7: QC rejection is round-trip idempotent.  The reason string attached to
a rejected record is a pure function of the record's content and the device
inventory, so feeding the same record back through `perform_quality_control`
with the same inventory (at any position of any collection) rejects it again
with the identical reason string. -/
theorem qc_rejection_idempotent (interface_stats : List IfStatsRow)
    (syslog : List SyslogRow) (device_inventory : List DeviceRow)
    (rec : InvalidRecord)
    (hrec : rec ∈ (perform_quality_control interface_stats syslog device_inventory).2.2) :
    (∀ r, rec.record = .ifr r →
      ∀ (interface_stats2 : List IfStatsRow) (syslog2 : List SyslogRow)
        (j : Nat) (hj : j < interface_stats2.length),
        interface_stats2.get ⟨j, hj⟩ = r →
        (⟨"interface_stats", j, .ifr r, rec.reason⟩ : InvalidRecord) ∈
          (perform_quality_control interface_stats2 syslog2 device_inventory).2.2) ∧
    (∀ r, rec.record = .sys r →
      ∀ (interface_stats2 : List IfStatsRow) (syslog2 : List SyslogRow)
        (j : Nat) (hj : j < syslog2.length),
        syslog2.get ⟨j, hj⟩ = r →
        (⟨"syslog", j, .sys r, rec.reason⟩ : InvalidRecord) ∈
          (perform_quality_control interface_stats2 syslog2 device_inventory).2.2) := by
  rw [qc_invalid_eq] at hrec
  rcases List.mem_append.mp hrec with hmem | hmem
  · obtain ⟨i, hi, hne, heq⟩ := qcIfInvalid_mem_iff.mp hmem
    constructor
    · intro r hr interface_stats2 syslog2 j hj hget
      have hrow : interface_stats.get ⟨i, hi⟩ = r := by
        rw [heq] at hr
        exact (RecordVal.ifr.injEq _ _).mp hr.symm |>.symm
      have hreason : rec.reason = String.intercalate "; "
          (ifStatsReasons (device_inventory.map (·.device)) r) := by
        rw [heq, ← hrow]
      have hne2 : (ifStatsReasons (device_inventory.map (·.device))
          (interface_stats2.get ⟨j, hj⟩)).isEmpty = false := by
        rw [hget, ← hrow]
        exact hne
      have hmem2 := qc_mem_invalid_of_fail interface_stats2 syslog2
        device_inventory j hj hne2
      rw [hget] at hmem2
      rw [hreason]
      exact hmem2
    · intro r hr
      rw [heq] at hr
      simp at hr
  · obtain ⟨i, hi, hne, heq⟩ := qcSysInvalid_mem_iff.mp hmem
    constructor
    · intro r hr
      rw [heq] at hr
      simp at hr
    · intro r hr interface_stats2 syslog2 j hj hget
      have hrow : syslog.get ⟨i, hi⟩ = r := by
        rw [heq] at hr
        exact (RecordVal.sys.injEq _ _).mp hr.symm |>.symm
      have hreason : rec.reason = String.intercalate "; "
          (syslogReasons (device_inventory.map (·.device)) r) := by
        rw [heq, ← hrow]
      have hne2 : (syslogReasons (device_inventory.map (·.device))
          (syslog2.get ⟨j, hj⟩)).isEmpty = false := by
        rw [hget, ← hrow]
        exact hne
      have hmem2 : (⟨"syslog", j, .sys (syslog2.get ⟨j, hj⟩),
          String.intercalate "; " (syslogReasons (device_inventory.map (·.device))
            (syslog2.get ⟨j, hj⟩))⟩ : InvalidRecord) ∈
          (perform_quality_control interface_stats2 syslog2 device_inventory).2.2 := by
        rw [qc_invalid_eq]
        apply List.mem_append_right
        have h0 := (@qcSysInvalid_mem_iff (device_inventory.map (·.device))
            ⟨"syslog", 0 + j, .sys (syslog2.get ⟨j, hj⟩),
              String.intercalate "; " (syslogReasons (device_inventory.map (·.device))
                (syslog2.get ⟨j, hj⟩))⟩
            0 syslog2).mpr ⟨j, hj, hne2, rfl⟩
        simpa using h0
      rw [hget] at hmem2
      rw [hreason]
      exact hmem2

/-- Witness for the C7 theorem: the record rejected at position 0 for an
unknown device and bad timestamp is rejected again, with the same reason, when
fed back at position 1 of another collection. -/
theorem qc_rejection_idempotent_witness :
    (⟨"interface_stats", 1,
      .ifr ⟨.str "bad", .str "RX", .str "e0", .num 1, .num 2, .num 1, .num 1⟩,
      ((perform_quality_control
          [⟨.str "bad", .str "RX", .str "e0", .num 1, .num 2, .num 1, .num 1⟩] []
          [⟨"R1", "S1", "V1", "core"⟩]).2.2.get
        ⟨0, by decide⟩).reason⟩ : InvalidRecord) ∈
      (perform_quality_control
        [⟨.str "2024-01-01T00:00:00Z", .str "R1", .str "e0", .num 1, .num 2, .num 1, .num 1⟩,
         ⟨.str "bad", .str "RX", .str "e0", .num 1, .num 2, .num 1, .num 1⟩]
        [] [⟨"R1", "S1", "V1", "core"⟩]).2.2 :=
  ((qc_rejection_idempotent
      [⟨.str "bad", .str "RX", .str "e0", .num 1, .num 2, .num 1, .num 1⟩] []
      [⟨"R1", "S1", "V1", "core"⟩]
      ((perform_quality_control
          [⟨.str "bad", .str "RX", .str "e0", .num 1, .num 2, .num 1, .num 1⟩] []
          [⟨"R1", "S1", "V1", "core"⟩]).2.2.get ⟨0, by decide⟩)
      (List.get_mem _ _ _)).1
    ⟨.str "bad", .str "RX", .str "e0", .num 1, .num 2, .num 1, .num 1⟩ rfl
    [⟨.str "2024-01-01T00:00:00Z", .str "R1", .str "e0", .num 1, .num 2, .num 1, .num 1⟩,
     ⟨.str "bad", .str "RX", .str "e0", .num 1, .num 2, .num 1, .num 1⟩]
    [] 1 (by simp) rfl)

/-! ### Lemmas about the correlation join -/

/-- A successful column-wise timestamp conversion preserves length. -/
theorem toDatetimeUTC_length :
    ∀ {l : List String} {ts : List Int}, toDatetimeUTC l = some ts →
      ts.length = l.length := by
  intro l
  induction l with
  | nil => intro ts h; simp [toDatetimeUTC] at h; simp [← h]
  | cons s rest ih =>
    intro ts h
    simp only [toDatetimeUTC] at h
    rcases h1 : parseISO8601 s with _ | t0 <;> rw [h1] at h
    · simp at h
    · rcases h2 : toDatetimeUTC rest with _ | ts0 <;> rw [h2] at h
      · simp at h
      · simp only [Option.some.injEq] at h
        subst h
        simp [ih h2]

/-- A successful column-wise timestamp conversion parses every entry. -/
theorem toDatetimeUTC_get :
    ∀ {l : List String} {ts : List Int}, toDatetimeUTC l = some ts →
      ∀ j (hj : j < l.length) (hj' : j < ts.length),
        parseISO8601 (l.get ⟨j, hj⟩) = some (ts.get ⟨j, hj'⟩) := by
  intro l
  induction l with
  | nil => intro ts _ j hj; simp at hj
  | cons s rest ih =>
    intro ts h j hj hj'
    simp only [toDatetimeUTC] at h
    rcases h1 : parseISO8601 s with _ | t0 <;> rw [h1] at h
    · simp at h
    · rcases h2 : toDatetimeUTC rest with _ | ts0 <;> rw [h2] at h
      · simp at h
      · simp only [Option.some.injEq] at h
        subst h
        cases j with
        | zero => simpa using h1
        | succ j =>
          exact ih h2 j (by simpa using Nat.lt_of_succ_lt_succ hj)
            (by simpa using Nat.lt_of_succ_lt_succ hj')

/-- With unique device ids in the inventory, at most one inventory row matches
a given device. -/
theorem filter_device_length_le_one (device_inventory : List DeviceRow)
    (hnd : (device_inventory.map (·.device)).Nodup) (d : String) :
    (device_inventory.filter (fun dv => dv.device == d)).length ≤ 1 := by
  induction device_inventory with
  | nil => simp
  | cons dv rest ih =>
    simp only [List.map_cons, List.nodup_cons] at hnd
    rcases hnd with ⟨hhead, hrest⟩
    rw [List.filter_cons]
    split
    · rename_i hdv
      simp only [beq_iff_eq] at hdv
      have hnil : rest.filter (fun x => x.device == d) = [] := by
        rw [List.filter_eq_nil_iff]
        intro x hx
        simp only [beq_iff_eq]
        intro hxd
        exact hhead (by rw [hdv, ← hxd]; exact List.mem_map_of_mem (·.device) hx)
      simp [hnil]
    · exact ih hrest

/-- A flat map whose body always yields a singleton is a map. -/
theorem flatMap_singleton_eq_map {α β : Type} (f : α → List β) (g : α → β)
    (h : ∀ x, f x = [g x]) : ∀ l : List α, l.flatMap f = l.map g := by
  intro l
  induction l with
  | nil => simp
  | cons x xs ih => simp [ih, h x]

/-- Under unique inventory device ids, the left join of one interface row
resolves to the first (and only) matching inventory row, if any. -/
theorem devJoin_singleton (device_inventory : List DeviceRow)
    (hnd : (device_inventory.map (·.device)).Nodup) (r : VIfRow) (t : Int) :
    (match device_inventory.filter (fun dv => dv.device == r.device) with
      | [] => [(r, t, (none : Option DeviceRow))]
      | ms => ms.map (fun m => (r, t, some m))) =
      [(r, t, (device_inventory.filter (fun dv => dv.device == r.device)).head?)] := by
  rcases hf : device_inventory.filter (fun dv => dv.device == r.device) with _ | ⟨m, ms⟩
  · rw [hf]
    rfl
  · have hlen := filter_device_length_le_one device_inventory hnd r.device
    rw [hf] at hlen
    simp only [List.length_cons] at hlen
    have hms : ms = [] := List.length_eq_zero.mp (by omega)
    subst hms
    rw [hf]
    rfl

/-- Under unique inventory device ids, a successful `transform` is the map
over the interface rows (zipped with their parsed timestamps) of one
transformed record each. -/
theorem transform_eq_map (valid_interface_stats : List VIfRow)
    (valid_syslog : List VSysRow) (device_inventory : List DeviceRow)
    (its sts : List Int)
    (hif : toDatetimeUTC (valid_interface_stats.map (·.ts)) = some its)
    (hsys : toDatetimeUTC (valid_syslog.map (·.ts)) = some sts)
    (hnd : (device_inventory.map (·.device)).Nodup) :
    transform valid_interface_stats valid_syslog device_inventory =
      some ((valid_interface_stats.zip its).map (fun p =>
        mkTransformed p.1 p.2
          ((device_inventory.filter (fun dv => dv.device == p.1.device)).head?)
          (valid_syslog.zip sts))) := by
  have h1 : transform valid_interface_stats valid_syslog device_inventory =
      some (((valid_interface_stats.zip its).flatMap (fun x =>
        match device_inventory.filter (fun dv => dv.device == x.1.device) with
        | [] => [(x.1, x.2, (none : Option DeviceRow))]
        | ms => ms.map (fun m => (x.1, x.2, some m)))).map
        (fun x => mkTransformed x.1 x.2.1 x.2.2 (valid_syslog.zip sts))) := by
    unfold transform transformEff
    rw [hif, hsys]
    rfl
  rw [h1, flatMap_singleton_eq_map
    (fun x : VIfRow × Int =>
      match device_inventory.filter (fun dv => dv.device == x.1.device) with
      | [] => [(x.1, x.2, (none : Option DeviceRow))]
      | ms => ms.map (fun m => (x.1, x.2, some m)))
    (fun p => (p.1, p.2,
      (device_inventory.filter (fun dv => dv.device == p.1.device)).head?))
    (fun p => devJoin_singleton device_inventory hnd p.1 p.2),
    List.map_map]
  rfl

/-- A successful `transform` parsed both timestamp columns. -/
theorem transform_some_elim (valid_interface_stats : List VIfRow)
    (valid_syslog : List VSysRow) (device_inventory : List DeviceRow)
    (out : List TransformedRecord)
    (hout : transform valid_interface_stats valid_syslog device_inventory = some out) :
    ∃ its sts, toDatetimeUTC (valid_interface_stats.map (·.ts)) = some its ∧
      toDatetimeUTC (valid_syslog.map (·.ts)) = some sts := by
  unfold transform transformEff at hout
  rcases h1 : toDatetimeUTC (valid_interface_stats.map (·.ts)) with _ | its <;>
    rw [h1] at hout
  · simp at hout
  · rcases h2 : toDatetimeUTC (valid_syslog.map (·.ts)) with _ | sts <;>
      rw [h2] at hout
    · simp at hout
    · exact ⟨its, sts, h1, h2⟩

/-- Projecting the syslog rows out of the zipped window filter gives the
filter by the spec's matching predicate. -/
theorem zip_filter_match (valid_syslog : List VSysRow) :
    ∀ (sts : List Int), toDatetimeUTC (valid_syslog.map (·.ts)) = some sts →
      ∀ (d : String) (t : Int),
        ((valid_syslog.zip sts).filter (syslogMatches d t)).map Prod.fst =
          valid_syslog.filter (specSyslogMatch d t) := by
  induction valid_syslog with
  | nil => intro sts _ d t; simp
  | cons s rest ih =>
    intro sts h d t
    simp only [List.map_cons, toDatetimeUTC] at h
    rcases h1 : parseISO8601 s.ts with _ | t0 <;> rw [h1] at h
    · simp at h
    · rcases h2 : toDatetimeUTC (rest.map (·.ts)) with _ | sts0 <;> rw [h2] at h
      · simp at h
      · simp only [Option.some.injEq] at h
        subst h
        have hhead : specSyslogMatch d t s = syslogMatches d t (s, t0) := by
          simp only [specSyslogMatch, syslogMatches, h1, Bool.decide_and, Bool.and_assoc]
        simp only [List.zip_cons_cons, List.filter_cons, hhead]
        rcases hm : syslogMatches d t (s, t0) with _ | _
        · simpa using ih sts0 h2 d t
        · simpa using ih sts0 h2 d t

/-- C2: With unique device ids in the inventory, a successful correlation join
returns exactly one transformed record per input interface-stat row — the
output count equals the input count, no row is filtered out — and the output
ordering matches the input ordering after the device join: record `i` carries
row `i`'s fields. -/
theorem transform_row_count_and_order (valid_interface_stats : List VIfRow)
    (valid_syslog : List VSysRow) (device_inventory : List DeviceRow)
    (out : List TransformedRecord)
    (hnd : (device_inventory.map (·.device)).Nodup)
    (hout : transform valid_interface_stats valid_syslog device_inventory = some out) :
    out.length = valid_interface_stats.length ∧
    ∀ i (hi : i < valid_interface_stats.length) (ho : i < out.length),
      (out.get ⟨i, ho⟩).ts = (valid_interface_stats.get ⟨i, hi⟩).ts ∧
      (out.get ⟨i, ho⟩).device = (valid_interface_stats.get ⟨i, hi⟩).device ∧
      (out.get ⟨i, ho⟩).ifName = (valid_interface_stats.get ⟨i, hi⟩).ifName ∧
      (out.get ⟨i, ho⟩).util_in = (valid_interface_stats.get ⟨i, hi⟩).util_in ∧
      (out.get ⟨i, ho⟩).util_out = (valid_interface_stats.get ⟨i, hi⟩).util_out ∧
      (out.get ⟨i, ho⟩).oper_status = (valid_interface_stats.get ⟨i, hi⟩).oper_status := by
  obtain ⟨its, sts, hif, hsys⟩ := transform_some_elim _ _ _ _ hout
  have hmap := transform_eq_map valid_interface_stats valid_syslog device_inventory
    its sts hif hsys hnd
  rw [hout] at hmap
  have houteq := Option.some.inj hmap
  subst houteq
  constructor
  · rw [List.length_map, List.length_zip, toDatetimeUTC_length hif]
    simp
  · intro i hi ho
    simp [List.get_eq_getElem, List.getElem_map, List.getElem_zip, mkTransformed]

/-- Witness for the C2 theorem: two interface rows yield exactly two records
in order, regardless of the syslog rows. -/
theorem transform_row_count_and_order_witness :
    ([⟨"2024-01-01T12:00:00Z", "R1", "e0", 10, 20, 1, 1⟩,
      ⟨"2024-01-01T13:00:00Z", "R2", "e1", 30, 40, 1, 2⟩] : List VIfRow).length = 2 ∧
    (transform
      [⟨"2024-01-01T12:00:00Z", "R1", "e0", 10, 20, 1, 1⟩,
       ⟨"2024-01-01T13:00:00Z", "R2", "e1", 30, 40, 1, 2⟩]
      [⟨"2024-01-01T12:01:00Z", "R1", "ERROR", "m"⟩]
      [⟨"R1", "S1", "V1", "core"⟩, ⟨"R2", "S2", "V2", "edge"⟩]).map
        (fun l => l.length) = some 2 := by
  constructor
  · rfl
  · have h := (transform_row_count_and_order
      [⟨"2024-01-01T12:00:00Z", "R1", "e0", 10, 20, 1, 1⟩,
       ⟨"2024-01-01T13:00:00Z", "R2", "e1", 30, 40, 1, 2⟩]
      [⟨"2024-01-01T12:01:00Z", "R1", "ERROR", "m"⟩]
      [⟨"R1", "S1", "V1", "core"⟩, ⟨"R2", "S2", "V2", "edge"⟩]
      ((transform
        [⟨"2024-01-01T12:00:00Z", "R1", "e0", 10, 20, 1, 1⟩,
         ⟨"2024-01-01T13:00:00Z", "R2", "e1", 30, 40, 1, 2⟩]
        [⟨"2024-01-01T12:01:00Z", "R1", "ERROR", "m"⟩]
        [⟨"R1", "S1", "V1", "core"⟩, ⟨"R2", "S2", "V2", "edge"⟩]).getD [])
      (by simp) (by rfl)).1
    have heq : (transform
        [⟨"2024-01-01T12:00:00Z", "R1", "e0", 10, 20, 1, 1⟩,
         ⟨"2024-01-01T13:00:00Z", "R2", "e1", 30, 40, 1, 2⟩]
        [⟨"2024-01-01T12:01:00Z", "R1", "ERROR", "m"⟩]
        [⟨"R1", "S1", "V1", "core"⟩, ⟨"R2", "S2", "V2", "edge"⟩]).map (fun l => l.length) =
      some ((transform
        [⟨"2024-01-01T12:00:00Z", "R1", "e0", 10, 20, 1, 1⟩,
         ⟨"2024-01-01T13:00:00Z", "R2", "e1", 30, 40, 1, 2⟩]
        [⟨"2024-01-01T12:01:00Z", "R1", "ERROR", "m"⟩]
        [⟨"R1", "S1", "V1", "core"⟩, ⟨"R2", "S2", "V2", "edge"⟩]).getD []).length := rfl
    rw [heq, h]
    rfl

/-- C1: For a valid interface-stat row with parsed UTC timestamp `t` and
device `d`, a valid-syslog row matches iff it has the same device and its
UTC-normalized timestamp lies in the closed interval `[t - 5 min, t + 5 min]`;
the transformed record's `syslog_severity`/`syslog_msg` are the severity and
message of the first matching row in the valid-syslog collection's original
order, and are absent when no row matches (the head of the empty match list). -/
theorem transform_attaches_first_window_match (valid_interface_stats : List VIfRow)
    (valid_syslog : List VSysRow) (device_inventory : List DeviceRow)
    (out : List TransformedRecord)
    (hnd : (device_inventory.map (·.device)).Nodup)
    (hout : transform valid_interface_stats valid_syslog device_inventory = some out)
    (i : Nat) (hi : i < valid_interface_stats.length) (t : Int)
    (ht : parseISO8601 ((valid_interface_stats.get ⟨i, hi⟩).ts) = some t) :
    (∀ s ∈ valid_syslog,
      specSyslogMatch (valid_interface_stats.get ⟨i, hi⟩).device t s = true ↔
        (s.device = (valid_interface_stats.get ⟨i, hi⟩).device ∧
          ∃ st, parseISO8601 s.ts = some st ∧
            t - timeWindow ≤ st ∧ st ≤ t + timeWindow)) ∧
    ∃ ho : i < out.length,
      (out.get ⟨i, ho⟩).syslog_severity =
        ((valid_syslog.filter
          (specSyslogMatch (valid_interface_stats.get ⟨i, hi⟩).device t)).head?).map
          (·.severity) ∧
      (out.get ⟨i, ho⟩).syslog_msg =
        ((valid_syslog.filter
          (specSyslogMatch (valid_interface_stats.get ⟨i, hi⟩).device t)).head?).map
          (·.message) := by
  constructor
  · intro s _
    simp only [specSyslogMatch]
    rcases hp : parseISO8601 s.ts with _ | st
    · simp
    · constructor
      · intro h
        simp only [Bool.and_eq_true, beq_iff_eq, decide_eq_true_eq] at h
        exact ⟨h.1, st, rfl, h.2⟩
      · rintro ⟨hdev, st2, hst2, hwin⟩
        cases Option.some.inj hst2
        simp [hdev, hwin.1, hwin.2]
  · obtain ⟨its, sts, hif, hsys⟩ := transform_some_elim _ _ _ _ hout
    have hmap := transform_eq_map valid_interface_stats valid_syslog device_inventory
      its sts hif hsys hnd
    rw [hout] at hmap
    have houteq := Option.some.inj hmap
    subst houteq
    have hlen : its.length = valid_interface_stats.length := by
      rw [toDatetimeUTC_length hif, List.length_map]
    have ho : i < (List.map (fun p =>
        mkTransformed p.1 p.2
          ((device_inventory.filter (fun dv => dv.device == p.1.device)).head?)
          (valid_syslog.zip sts))
        (valid_interface_stats.zip its)).length := by
      rw [List.length_map, List.length_zip, hlen]
      simp [hi]
    refine ⟨ho, ?_⟩
    have hti : parseISO8601 ((valid_interface_stats.map (·.ts)).get
        ⟨i, by simpa using hi⟩) = some (its.get ⟨i, by omega⟩) :=
      toDatetimeUTC_get hif i (by simpa using hi) (by omega)
    have htsi : (valid_interface_stats.map (·.ts)).get ⟨i, by simpa using hi⟩ =
        (valid_interface_stats.get ⟨i, hi⟩).ts := by
      simp [List.get_eq_getElem, List.getElem_map]
    rw [htsi, ht] at hti
    have ht_eq : its.get ⟨i, by omega⟩ = t := (Option.some.inj hti).symm
    have hproj := zip_filter_match valid_syslog sts hsys
      (valid_interface_stats.get ⟨i, hi⟩).device t
    have hget : (List.map (fun p =>
        mkTransformed p.1 p.2
          ((device_inventory.filter (fun dv => dv.device == p.1.device)).head?)
          (valid_syslog.zip sts))
        (valid_interface_stats.zip its)).get ⟨i, ho⟩ =
        mkTransformed (valid_interface_stats.get ⟨i, hi⟩) t
          ((device_inventory.filter (fun dv =>
            dv.device == (valid_interface_stats.get ⟨i, hi⟩).device)).head?)
          (valid_syslog.zip sts) := by
      rw [← ht_eq]
      simp [List.get_eq_getElem, List.getElem_map, List.getElem_zip]
    rw [hget]
    simp only [mkTransformed]
    rw [← hproj, List.head?_map, Option.map_map, Option.map_map]
    constructor <;> rfl

/-- Concrete data for the C1 witness. -/
def c1Vifs : List VIfRow := [⟨"2024-01-01T12:00:00Z", "R1", "eth0", 10, 20, 1, 1⟩]

/-- Concrete syslog rows for the C1 witness: the 12:05:01Z row is outside the
window, the 12:04:59Z row is the first in-order match, the 12:00:30Z row is
chronologically nearer but later in the collection. -/
def c1Vsys : List VSysRow :=
  [⟨"2024-01-01T12:05:01Z", "R1", "ERROR", "late"⟩,
   ⟨"2024-01-01T12:04:59Z", "R1", "WARN", "first"⟩,
   ⟨"2024-01-01T12:00:30Z", "R1", "INFO", "near"⟩]

/-- Concrete inventory for the C1 witness. -/
def c1Inv : List DeviceRow := [⟨"R1", "S1", "V1", "core"⟩]

/-- The output of `transform` on the C1 witness data. -/
def c1Out : List TransformedRecord :=
  [⟨"2024-01-01T12:00:00Z", "R1", some "S1", some "V1", some "core",
    "eth0", 10, 20, 1, some "WARN", some "first"⟩]

/-- Witness for the C1 theorem: for `t = 2024-01-01T12:00:00Z` (epoch
1704110400) on device R1, the row at 12:05:01Z (301 s away) does not match,
the one at 12:04:59Z (299 s away) does, and the first in-order match
12:04:59Z is attached rather than the chronologically nearer 12:00:30Z. -/
theorem transform_attaches_first_window_match_witness :
    (specSyslogMatch "R1" 1704110400
      ⟨"2024-01-01T12:04:59Z", "R1", "WARN", "first"⟩ = true) ∧
    (specSyslogMatch "R1" 1704110400
      ⟨"2024-01-01T12:05:01Z", "R1", "ERROR", "late"⟩ = false) ∧
    (transform c1Vifs c1Vsys c1Inv = some c1Out) ∧
    ((∀ s ∈ c1Vsys,
      specSyslogMatch (c1Vifs.get ⟨0, by simp [c1Vifs]⟩).device 1704110400 s = true ↔
        (s.device = (c1Vifs.get ⟨0, by simp [c1Vifs]⟩).device ∧
          ∃ st, parseISO8601 s.ts = some st ∧
            1704110400 - timeWindow ≤ st ∧ st ≤ 1704110400 + timeWindow)) ∧
      ∃ ho : 0 < c1Out.length,
        (c1Out.get ⟨0, ho⟩).syslog_severity =
          ((c1Vsys.filter
            (specSyslogMatch (c1Vifs.get ⟨0, by simp [c1Vifs]⟩).device
              1704110400)).head?).map (·.severity) ∧
        (c1Out.get ⟨0, ho⟩).syslog_msg =
          ((c1Vsys.filter
            (specSyslogMatch (c1Vifs.get ⟨0, by simp [c1Vifs]⟩).device
              1704110400)).head?).map (·.message)) := by
  refine ⟨rfl, rfl, rfl, ?_⟩
  exact transform_attaches_first_window_match c1Vifs c1Vsys c1Inv c1Out
    (by simp [c1Inv]) (by rfl) 0 (by simp [c1Vifs]) 1704110400 (by rfl)

/-- C8: A valid interface-stat row whose device id is absent from the device
inventory still yields a transformed record (the row is not dropped: the
output count equals the input count), and that record's device-derived fields
`site`, `vendor` and `role` are empty. -/
theorem transform_unknown_device_kept_with_empty_fields
    (valid_interface_stats : List VIfRow) (valid_syslog : List VSysRow)
    (device_inventory : List DeviceRow) (out : List TransformedRecord)
    (hnd : (device_inventory.map (·.device)).Nodup)
    (hout : transform valid_interface_stats valid_syslog device_inventory = some out)
    (i : Nat) (hi : i < valid_interface_stats.length)
    (habsent : ∀ dv ∈ device_inventory,
      dv.device ≠ (valid_interface_stats.get ⟨i, hi⟩).device) :
    out.length = valid_interface_stats.length ∧
    ∃ ho : i < out.length,
      (out.get ⟨i, ho⟩).site = none ∧
      (out.get ⟨i, ho⟩).vendor = none ∧
      (out.get ⟨i, ho⟩).role = none ∧
      (out.get ⟨i, ho⟩).device = (valid_interface_stats.get ⟨i, hi⟩).device ∧
      (out.get ⟨i, ho⟩).ts = (valid_interface_stats.get ⟨i, hi⟩).ts := by
  obtain ⟨its, sts, hif, hsys⟩ := transform_some_elim _ _ _ _ hout
  have hmap := transform_eq_map valid_interface_stats valid_syslog device_inventory
    its sts hif hsys hnd
  rw [hout] at hmap
  have houteq := Option.some.inj hmap
  subst houteq
  have hlen : its.length = valid_interface_stats.length := by
    rw [toDatetimeUTC_length hif, List.length_map]
  have hfilter : device_inventory.filter (fun dv =>
      dv.device == (valid_interface_stats.get ⟨i, hi⟩).device) = [] := by
    rw [List.filter_eq_nil_iff]
    intro dv hdv
    simpa using habsent dv hdv
  constructor
  · rw [List.length_map, List.length_zip, hlen]
    simp
  · have ho : i < (List.map (fun p =>
        mkTransformed p.1 p.2
          ((device_inventory.filter (fun dv => dv.device == p.1.device)).head?)
          (valid_syslog.zip sts))
        (valid_interface_stats.zip its)).length := by
      rw [List.length_map, List.length_zip, hlen]
      simp [hi]
    refine ⟨ho, ?_⟩
    simp [List.get_eq_getElem, List.getElem_map, List.getElem_zip, mkTransformed,
      hfilter]
    intro x hx
    simpa using habsent x hx

/-- Witness for the C8 theorem: device R9 is not in the inventory; its row
still yields a record with empty `site`/`vendor`/`role`. -/
theorem transform_unknown_device_kept_witness :
    ([⟨"2024-01-01T12:00:00Z", "R9", "eth1", 30, 40, 1, 2⟩] : List VIfRow).length = 1 ∧
    ∃ ho : (0 : Nat) < ([⟨"2024-01-01T12:00:00Z", "R9", none, none, none,
        "eth1", 30, 40, 2, none, none⟩] : List TransformedRecord).length,
      (([⟨"2024-01-01T12:00:00Z", "R9", none, none, none,
          "eth1", 30, 40, 2, none, none⟩] : List TransformedRecord).get ⟨0, ho⟩).site = none ∧
      (([⟨"2024-01-01T12:00:00Z", "R9", none, none, none,
          "eth1", 30, 40, 2, none, none⟩] : List TransformedRecord).get ⟨0, ho⟩).vendor = none ∧
      (([⟨"2024-01-01T12:00:00Z", "R9", none, none, none,
          "eth1", 30, 40, 2, none, none⟩] : List TransformedRecord).get ⟨0, ho⟩).role = none ∧
      (([⟨"2024-01-01T12:00:00Z", "R9", none, none, none,
          "eth1", 30, 40, 2, none, none⟩] : List TransformedRecord).get ⟨0, ho⟩).device =
        (([⟨"2024-01-01T12:00:00Z", "R9", "eth1", 30, 40, 1, 2⟩] : List VIfRow).get
          ⟨0, by simp⟩).device ∧
      (([⟨"2024-01-01T12:00:00Z", "R9", none, none, none,
          "eth1", 30, 40, 2, none, none⟩] : List TransformedRecord).get ⟨0, ho⟩).ts =
        (([⟨"2024-01-01T12:00:00Z", "R9", "eth1", 30, 40, 1, 2⟩] : List VIfRow).get
          ⟨0, by simp⟩).ts := by
  have h := transform_unknown_device_kept_with_empty_fields
    [⟨"2024-01-01T12:00:00Z", "R9", "eth1", 30, 40, 1, 2⟩] []
    [⟨"R1", "S1", "V1", "core"⟩]
    [⟨"2024-01-01T12:00:00Z", "R9", none, none, none, "eth1", 30, 40, 2, none, none⟩]
    (by simp) (by rfl) 0 (by simp)
    (by intro dv hdv; simp at hdv; simp [hdv])
  exact ⟨by rfl, h.2⟩

/-- C9 counterexample: `transform` mutates its `valid_interface_stats` input
in place — after the call, the input frame has gained a `ts_dt` column, so it
is no longer equal to its pre-call state. -/
theorem transform_mutates_inputs_cex :
    ∃ p, transformEff
        ⟨[⟨"2024-01-01T00:00:00Z", "R1", "e0", 10, 20, 1, 1⟩], none⟩
        ⟨[], none⟩ [⟨"R1", "S1", "V1", "core"⟩] = some p ∧
      p.1 ≠ ⟨[⟨"2024-01-01T00:00:00Z", "R1", "e0", 10, 20, 1, 1⟩], none⟩ := by
  refine ⟨(⟨[⟨"2024-01-01T00:00:00Z", "R1", "e0", 10, 20, 1, 1⟩], some [1704067200]⟩,
    ⟨[], some []⟩,
    [⟨"2024-01-01T00:00:00Z", "R1", some "S1", some "V1", some "core",
      "e0", 10, 20, 1, none, none⟩]), rfl, ?_⟩
  intro h
  have := congrArg IfFrame.ts_dt h
  simp at this

/-- C9 amended: `perform_quality_control` and `generate_analytics` leave
their inputs untouched (they are pure functions of their arguments in this
embedding, as in the source, which only reads or copies them), but
`transform` assigns a `ts_dt` column to both of its frame arguments in place.
That is its only effect on them: the rows and all original columns are
unchanged, and the returned record list is a new structure computed from the
unchanged rows. -/
theorem transform_effect_only_adds_ts_dt (fIf : IfFrame) (fSys : SysFrame)
    (device_inventory : List DeviceRow) (p : IfFrame × SysFrame × List TransformedRecord)
    (h : transformEff fIf fSys device_inventory = some p) :
    p.1.rows = fIf.rows ∧ p.2.1.rows = fSys.rows ∧
    p.1.ts_dt = toDatetimeUTC (fIf.rows.map (·.ts)) ∧
    p.2.1.ts_dt = toDatetimeUTC (fSys.rows.map (·.ts)) ∧
    transform fIf.rows fSys.rows device_inventory = some p.2.2 := by
  unfold transformEff at h
  rcases h1 : toDatetimeUTC (fIf.rows.map (·.ts)) with _ | its <;> rw [h1] at h
  · simp at h
  · rcases h2 : toDatetimeUTC (fSys.rows.map (·.ts)) with _ | sts <;> rw [h2] at h
    · simp at h
    · simp only [Option.bind_eq_bind, Option.some_bind, Option.some.injEq] at h
      subst h
      refine ⟨rfl, rfl, ?_, ?_, ?_⟩
      · rw [h1]
      · rw [h2]
      · unfold transform transformEff
        rw [h1, h2]
        rfl

/-- Witness for the C9 amended theorem at the counterexample's input. -/
theorem transform_effect_only_adds_ts_dt_witness :
    (⟨⟨[⟨"2024-01-01T00:00:00Z", "R1", "e0", 10, 20, 1, 1⟩], some [1704067200]⟩,
      ⟨[], some []⟩,
      [⟨"2024-01-01T00:00:00Z", "R1", some "S1", some "V1", some "core",
        "e0", 10, 20, 1, none, none⟩]⟩ :
      IfFrame × SysFrame × List TransformedRecord).1.rows =
      (⟨[⟨"2024-01-01T00:00:00Z", "R1", "e0", 10, 20, 1, 1⟩], none⟩ : IfFrame).rows ∧
    (⟨⟨[⟨"2024-01-01T00:00:00Z", "R1", "e0", 10, 20, 1, 1⟩], some [1704067200]⟩,
      ⟨[], some []⟩,
      [⟨"2024-01-01T00:00:00Z", "R1", some "S1", some "V1", some "core",
        "e0", 10, 20, 1, none, none⟩]⟩ :
      IfFrame × SysFrame × List TransformedRecord).2.1.rows =
      (⟨[], none⟩ : SysFrame).rows ∧
    (⟨⟨[⟨"2024-01-01T00:00:00Z", "R1", "e0", 10, 20, 1, 1⟩], some [1704067200]⟩,
      ⟨[], some []⟩,
      [⟨"2024-01-01T00:00:00Z", "R1", some "S1", some "V1", some "core",
        "e0", 10, 20, 1, none, none⟩]⟩ :
      IfFrame × SysFrame × List TransformedRecord).1.ts_dt =
      toDatetimeUTC (((⟨[⟨"2024-01-01T00:00:00Z", "R1", "e0", 10, 20, 1, 1⟩], none⟩ :
        IfFrame).rows).map (·.ts)) ∧
    (⟨⟨[⟨"2024-01-01T00:00:00Z", "R1", "e0", 10, 20, 1, 1⟩], some [1704067200]⟩,
      ⟨[], some []⟩,
      [⟨"2024-01-01T00:00:00Z", "R1", some "S1", some "V1", some "core",
        "e0", 10, 20, 1, none, none⟩]⟩ :
      IfFrame × SysFrame × List TransformedRecord).2.1.ts_dt =
      toDatetimeUTC (((⟨[], none⟩ : SysFrame).rows).map (·.ts)) ∧
    transform (⟨[⟨"2024-01-01T00:00:00Z", "R1", "e0", 10, 20, 1, 1⟩], none⟩ :
        IfFrame).rows ((⟨[], none⟩ : SysFrame)).rows [⟨"R1", "S1", "V1", "core"⟩] =
      some (⟨⟨[⟨"2024-01-01T00:00:00Z", "R1", "e0", 10, 20, 1, 1⟩], some [1704067200]⟩,
        ⟨[], some []⟩,
        [⟨"2024-01-01T00:00:00Z", "R1", some "S1", some "V1", some "core",
          "e0", 10, 20, 1, none, none⟩]⟩ :
        IfFrame × SysFrame × List TransformedRecord).2.2 :=
  transform_effect_only_adds_ts_dt
    ⟨[⟨"2024-01-01T00:00:00Z", "R1", "e0", 10, 20, 1, 1⟩], none⟩ ⟨[], none⟩
    [⟨"R1", "S1", "V1", "core"⟩]
    ⟨⟨[⟨"2024-01-01T00:00:00Z", "R1", "e0", 10, 20, 1, 1⟩], some [1704067200]⟩,
      ⟨[], some []⟩,
      [⟨"2024-01-01T00:00:00Z", "R1", some "S1", some "V1", some "core",
        "e0", 10, 20, 1, none, none⟩]⟩
    (by rfl)

/-! ### Lemmas about the aggregation -/

/-- Every element of a non-empty list is at most its running maximum. -/
theorem le_qMax_of_mem : ∀ (xs : List ℚ) (a x : ℚ), x ∈ a :: xs →
    x ≤ xs.foldl max a := by
  intro xs
  induction xs with
  | nil => intro a x hx; simp at hx; simp [hx]
  | cons b xs ih =>
    intro a x hx
    have hstep : ∀ y ∈ (max a b) :: xs, y ≤ xs.foldl max (max a b) := ih (max a b)
    rcases List.mem_cons.mp hx with h | hx'
    · subst h
      calc x ≤ max x b := le_max_left x b
        _ ≤ xs.foldl max (max x b) := hstep _ (List.mem_cons_self _ _)
    · rcases List.mem_cons.mp hx' with h | hx''
      · subst h
        calc x ≤ max a x := le_max_right a x
          _ ≤ xs.foldl max (max a x) := hstep _ (List.mem_cons_self _ _)
      · exact hstep x (List.mem_cons_of_mem _ hx'')

/-- The mean of a non-empty list of rationals is at most its maximum. -/
theorem qMean_le_qMax (l : List ℚ) (hne : l ≠ []) : qMean l ≤ qMax l := by
  rcases l with _ | ⟨a, xs⟩
  · exact absurd rfl hne
  · have hmax : ∀ x ∈ a :: xs, x ≤ qMax (a :: xs) := by
      intro x hx
      exact le_qMax_of_mem xs a x hx
    have hsum : (a :: xs).sum ≤ (a :: xs).length • qMax (a :: xs) :=
      List.sum_le_card_nsmul _ _ hmax
    rw [nsmul_eq_mul] at hsum
    have hpos : (0 : ℚ) < (a :: xs).length := by
      simp
      positivity
    rw [qMean, div_le_iff₀ hpos]
    calc (a :: xs).sum ≤ ((a :: xs).length : ℚ) * qMax (a :: xs) := hsum
      _ = qMax (a :: xs) * ((a :: xs).length : ℚ) := mul_comm _ _

/-- Round-half-to-even stays within one unit above the floor. -/
theorem roundHalfEven_bounds (q : ℚ) :
    ⌊q⌋ ≤ roundHalfEven q ∧ roundHalfEven q ≤ ⌊q⌋ + 1 := by
  unfold roundHalfEven
  dsimp only
  split_ifs <;> omega

/-- Round-half-to-even is monotone. -/
theorem roundHalfEven_mono (a b : ℚ) (hab : a ≤ b) :
    roundHalfEven a ≤ roundHalfEven b := by
  have hfl : ⌊a⌋ ≤ ⌊b⌋ := Int.floor_le_floor hab
  rcases lt_or_eq_of_le hfl with hlt | heq
  · calc roundHalfEven a ≤ ⌊a⌋ + 1 := (roundHalfEven_bounds a).2
      _ ≤ ⌊b⌋ := by omega
      _ ≤ roundHalfEven b := (roundHalfEven_bounds b).1
  · have hra : (a - ⌊a⌋) ≤ (b - ⌊b⌋) := by
      rw [← heq]
      have : (⌊a⌋ : ℚ) = (⌊a⌋ : ℚ) := rfl
      linarith [hab]
    unfold roundHalfEven
    dsimp only
    rw [← heq]
    split_ifs with h1 h2 h3 h4 h5 h6 h7 h8 h9 h10 h11 h12 <;>
      first
        | omega
        | (exfalso; linarith)

/-- Rounding to two decimals is monotone. -/
theorem round2_mono (a b : ℚ) (hab : a ≤ b) : round2 a ≤ round2 b := by
  unfold round2
  have h := roundHalfEven_mono (100 * a) (100 * b) (by linarith)
  have : ((roundHalfEven (100 * a) : ℚ)) ≤ ((roundHalfEven (100 * b) : ℚ)) := by
    exact_mod_cast h
  linarith

/-- Membership in an insertion is membership in the inserted element or the
list. -/
theorem mem_insertSorted (a x : String) :
    ∀ (l : List String), (x ∈ insertSorted a l ↔ x = a ∨ x ∈ l) := by
  intro l
  induction l with
  | nil => simp [insertSorted]
  | cons b rest ih =>
    simp only [insertSorted]
    split
    · simp
    · simp only [List.mem_cons, ih]
      tauto

/-- Sorting does not change membership. -/
theorem mem_sortStrings (x : String) :
    ∀ (l : List String), (x ∈ sortStrings l ↔ x ∈ l) := by
  intro l
  induction l with
  | nil => simp [sortStrings]
  | cons a rest ih =>
    simp only [sortStrings, mem_insertSorted, ih, List.mem_cons]

/-- C5: For every device-summary row, `error_count` equals the number of rows
of the full valid-syslog set with the same device and severity literally
`"ERROR"`, independent of the join outcome (the aggregation consumes the
syslog set directly); devices with no such rows get the integer 0 (the count
of an empty filter, never absent); every summary device comes from the
transformed records, and every transformed record's device appears in the
summary — so devices appearing only in syslog are excluded. -/
theorem analytics_error_count_full_syslog (transformed_df : List TransformedRecord)
    (valid_syslog : List VSysRow) (s : DeviceSummary)
    (hs : s ∈ generate_analytics transformed_df valid_syslog) :
    s.error_count = valid_syslog.countP
      (fun row => row.device == s.device && row.severity == "ERROR") ∧
    (∃ r ∈ transformed_df, r.device = s.device) ∧
    (∀ r ∈ transformed_df, ∃ s2 ∈ generate_analytics transformed_df valid_syslog,
      s2.device = r.device) := by
  simp only [generate_analytics, List.mem_map] at hs
  obtain ⟨d, hd, hseq⟩ := hs
  have hdev : s.device = d := by rw [← hseq]
  refine ⟨?_, ?_, ?_⟩
  · have hcount : s.error_count =
        ((valid_syslog.filter (fun row => row.severity == "ERROR")).filter
          (fun row => row.device == d)).length := by
      rw [← hseq]
    rw [hcount, ← List.countP_eq_length_filter, List.countP_filter, hdev]
  · have hd' : d ∈ transformed_df.map (·.device) :=
      List.mem_dedup.mp ((mem_sortStrings d _).mp hd)
    obtain ⟨r, hr, hrd⟩ := List.mem_map.mp hd'
    exact ⟨r, hr, by rw [hdev, hrd]⟩
  · intro r hr
    have hrd : r.device ∈ sortStrings ((transformed_df.map (·.device)).dedup) :=
      (mem_sortStrings r.device _).mpr (List.mem_dedup.mpr (List.mem_map_of_mem _ hr))
    refine ⟨{ device := r.device
              avg_utilization := round2 (qMean
                ((transformed_df.filter (fun x => x.device == r.device)).map
                  utilizationOf))
              max_utilization := round2 (qMax
                ((transformed_df.filter (fun x => x.device == r.device)).map
                  utilizationOf))
              error_count := ((valid_syslog.filter
                (fun x => x.severity == "ERROR")).filter
                  (fun x => x.device == r.device)).length }, ?_, rfl⟩
    simp only [generate_analytics, List.mem_map]
    exact ⟨r.device, hrd, rfl⟩

/-- Concrete transformed records for the C5 witness: a single R9 record. -/
def c5Tdf : List TransformedRecord :=
  [⟨"2024-01-01T12:00:00Z", "R9", none, none, none, "eth1", 30, 40, 2, none, none⟩]

/-- Concrete valid syslog for the C5 witness: one unmatched R1 ERROR row and
one R9 INFO row (so R9 has zero matching ERROR rows). -/
def c5Vsys : List VSysRow :=
  [⟨"2024-01-01T12:05:01Z", "R1", "ERROR", "late"⟩,
   ⟨"2024-01-01T18:00:00Z", "R9", "INFO", "fine"⟩]

/-- The single summary row produced on the C5 witness data. -/
def c5Sum : DeviceSummary :=
  ⟨"R9",
   round2 (qMean ((c5Tdf.filter (fun r => r.device == "R9")).map utilizationOf)),
   round2 (qMax ((c5Tdf.filter (fun r => r.device == "R9")).map utilizationOf)),
   ((c5Vsys.filter (fun r => r.severity == "ERROR")).filter
     (fun r => r.device == "R9")).length⟩

/-- Witness for the C5 theorem: device R9 has zero ERROR rows (integer 0), is
present in the summary, and the syslog-only device R1 contributes nothing. -/
theorem analytics_error_count_full_syslog_witness :
    c5Sum.error_count = c5Vsys.countP
      (fun row => row.device == c5Sum.device && row.severity == "ERROR") ∧
    (∃ r ∈ c5Tdf, r.device = c5Sum.device) ∧
    (∀ r ∈ c5Tdf, ∃ s2 ∈ generate_analytics c5Tdf c5Vsys, s2.device = r.device) :=
  analytics_error_count_full_syslog c5Tdf c5Vsys c5Sum
    (List.mem_singleton.mpr rfl)

/-- C10: In every device-summary row, the rounded maximum utilization is at
least the rounded average utilization: the mean of a device's per-record
utilizations is at most their maximum, and 2-decimal rounding is monotone. -/
theorem analytics_max_ge_avg (transformed_df : List TransformedRecord)
    (valid_syslog : List VSysRow) (s : DeviceSummary)
    (hs : s ∈ generate_analytics transformed_df valid_syslog) :
    s.avg_utilization ≤ s.max_utilization := by
  simp only [generate_analytics, List.mem_map] at hs
  obtain ⟨d, hd, hseq⟩ := hs
  have hd' : d ∈ transformed_df.map (·.device) :=
    List.mem_dedup.mp ((mem_sortStrings d _).mp hd)
  obtain ⟨r, hr, hrd⟩ := List.mem_map.mp hd'
  have hne : (transformed_df.filter (fun x => x.device == d)).map utilizationOf ≠ [] := by
    have : r ∈ transformed_df.filter (fun x => x.device == d) :=
      List.mem_filter.mpr ⟨hr, by simp [hrd]⟩
    intro hnil
    rw [List.map_eq_nil_iff] at hnil
    rw [hnil] at this
    simp at this
  have havg : s.avg_utilization = round2 (qMean
      ((transformed_df.filter (fun x => x.device == d)).map utilizationOf)) := by
    rw [← hseq]
  have hmax : s.max_utilization = round2 (qMax
      ((transformed_df.filter (fun x => x.device == d)).map utilizationOf)) := by
    rw [← hseq]
  rw [havg, hmax]
  exact round2_mono _ _ (qMean_le_qMax _ hne)

/-- Concrete transformed records for the C10 witness: two R1 records with
utilizations 15 and 35. -/
def c10Tdf : List TransformedRecord :=
  [⟨"2024-01-01T12:00:00Z", "R1", none, none, none, "e0", 10, 20, 1, none, none⟩,
   ⟨"2024-01-01T13:00:00Z", "R1", none, none, none, "e0", 30, 40, 1, none, none⟩]

/-- The single summary row produced on the C10 witness data. -/
def c10Sum : DeviceSummary :=
  ⟨"R1",
   round2 (qMean ((c10Tdf.filter (fun r => r.device == "R1")).map utilizationOf)),
   round2 (qMax ((c10Tdf.filter (fun r => r.device == "R1")).map utilizationOf)),
   0⟩

/-- Witness for the C10 theorem: on the device with utilizations 15 and 35,
the rounded maximum is at least the rounded average. -/
theorem analytics_max_ge_avg_witness :
    c10Sum.avg_utilization ≤ c10Sum.max_utilization :=
  analytics_max_ge_avg c10Tdf [] c10Sum (List.mem_singleton.mpr rfl)

end NMS
